import Mathlib

/-!
Verification of `src/C++/DesignPatterns/Singleton.cpp` (repository coustea/StudyHub).

The file contains five didactic variants of a lazy singleton accessor, each a
class `Singleton` with a static member `getInstance`:

* V1 (lines 16-21): single null-check, `new` if null, no synchronization;
* V2 (lines 40-46): `std::lock_guard` on every call, then null-check and `new`;
* V3 (lines 67-75): double-checked locking without atomics (pre-C++11 DCLP);
* V4 (lines 96-110): double-checked locking over `std::atomic<Singleton*>`
  with relaxed loads/stores and explicit acquire/release fences;
* V5 (lines 123-126): Meyers singleton (block-scoped `static Singleton instance`).

We model heap identities of constructed `Singleton` objects as natural numbers
handed out by a counting allocator (`nextId`), the static member `m_instance`
as an `Option Nat` (`none` = `nullptr`), and instrument states with a
constructor-call counter `ctorCount` (the spec's process-wide counter).

Sequential executions are modelled by state-passing functions; the concurrent
executions needed for the single-instance claims are modelled by explicit
interleaving machines (one small-step transition system per variant, a schedule
being a list of thread indices); the acquire/release ordering contract of V4 is
modelled by the event structure of its publish/observe paths together with the
fence-synchronization rule of the C++ memory model.
-/

/-- Shared sequential state: `m_instance` is the static pointer slot
(`none` = `nullptr`), `ctorCount` counts `Singleton` constructor calls,
`nextId` is the allocator handing out fresh heap identities. -/
structure SState where
  m_instance : Option Nat
  ctorCount : Nat
  nextId : Nat
deriving Repr, DecidableEq

/-- The process-start state: `Singleton* Singleton::m_instance = nullptr;`. -/
def SState.init : SState := ⟨none, 0, 0⟩

namespace SingletonV1

/-- V1 `getInstance` (Singleton.cpp lines 16-21): if `m_instance == nullptr`
then `m_instance = new Singleton()`; return `m_instance`. -/
def getInstance (s : SState) : Nat × SState :=
  match s.m_instance with
  | none =>
      let p := s.nextId
      (p, ⟨some p, s.ctorCount + 1, s.nextId + 1⟩)
  | some p => (p, s)

/-- V1 `getInstance` with a fallible constructor: when `ok = false`,
`new Singleton()` throws before the assignment `m_instance = ...` executes,
so the exception propagates (`Except.error`) and the state is untouched. -/
def getInstanceE (ok : Bool) (s : SState) : Except Unit Nat × SState :=
  match s.m_instance with
  | none =>
      if ok then
        let p := s.nextId
        (.ok p, ⟨some p, s.ctorCount + 1, s.nextId + 1⟩)
      else (.error (), s)
  | some p => (.ok p, s)

/-- Iterated sequential calls to V1 `getInstance`, returning the list of
results (most recent first) and the final state. -/
def calls : Nat → SState → List Nat × SState
  | 0, s => ([], s)
  | n + 1, s =>
      let (r, s') := getInstance s
      let (rs, s'') := calls n s'
      (r :: rs, s'')

end SingletonV1

namespace SingletonV2

/-- V2 `getInstance` (Singleton.cpp lines 40-46), sequential execution: the
`std::lock_guard` always succeeds uncontended, then the body is V1's. -/
def getInstance (s : SState) : Nat × SState :=
  match s.m_instance with
  | none =>
      let p := s.nextId
      (p, ⟨some p, s.ctorCount + 1, s.nextId + 1⟩)
  | some p => (p, s)

/-- V2 `getInstance` with a fallible constructor: the exception from
`new Singleton()` propagates out of the critical section (the `lock_guard`
unwinds); no assignment to `m_instance` has happened. -/
def getInstanceE (ok : Bool) (s : SState) : Except Unit Nat × SState :=
  match s.m_instance with
  | none =>
      if ok then
        let p := s.nextId
        (.ok p, ⟨some p, s.ctorCount + 1, s.nextId + 1⟩)
      else (.error (), s)
  | some p => (.ok p, s)

/-! ### Interleaving machine for V2

Concurrent executions of V2's `getInstance` (any number of threads, each
calling once). Shared state: `m_instance` and `m_mutex`. Each thread's call
is broken at the points where the shared state is touched: acquiring the
`lock_guard`, the null-check, the `new` + assignment, and the `lock_guard`
destructor releasing the mutex at the end of the scope. -/

/-- Shared (static) state of the V2 class: the pointer slot, whether
`m_mutex` is held, the constructor-call counter and the allocator. -/
structure Global where
  m_instance : Option Nat
  m_mutex : Bool
  ctorCount : Nat
  nextId : Nat
deriving Repr, DecidableEq

/-- Control point of one thread inside V2 `getInstance`. -/
inductive TState where
  /-- about to run `std::lock_guard<std::mutex> lock(m_mutex)` -/
  | start : TState
  /-- holds the mutex, about to evaluate `m_instance == nullptr` -/
  | locked : TState
  /-- saw `nullptr` under the lock, about to run `m_instance = new Singleton()` -/
  | constructing : TState
  /-- body finished with result `r`, `lock_guard` destructor pending -/
  | unlocking : Nat → TState
  /-- returned `r` from `getInstance` -/
  | done : Nat → TState
deriving Repr, DecidableEq

/-- One small step of a single V2 thread: a blocked thread (mutex held by
another) or a finished thread takes a stuttering step. -/
def threadStep (g : Global) (t : TState) : Global × TState :=
  match t with
  | .start => if g.m_mutex then (g, .start) else ({ g with m_mutex := true }, .locked)
  | .locked =>
      match g.m_instance with
      | none => (g, .constructing)
      | some p => (g, .unlocking p)
  | .constructing =>
      let p := g.nextId
      (⟨some p, g.m_mutex, g.ctorCount + 1, g.nextId + 1⟩, .unlocking p)
  | .unlocking r => ({ g with m_mutex := false }, .done r)
  | .done r => (g, .done r)

/-- A configuration: the shared state plus every thread's control point. -/
structure Config where
  global : Global
  threads : List TState
deriving Repr, DecidableEq

/-- The scheduler lets thread `i` take one step (no-op on an out-of-range
index). -/
def step (c : Config) (i : Nat) : Config :=
  if h : i < c.threads.length then
    ⟨(threadStep c.global c.threads[i]).1,
     c.threads.set i (threadStep c.global c.threads[i]).2⟩
  else c

/-- Initial configuration: `m_instance = nullptr`, mutex free, `n` threads
each about to call `getInstance`. -/
def init (n : Nat) : Config := ⟨⟨none, false, 0, 0⟩, List.replicate n .start⟩

/-- Run a schedule (an arbitrary finite interleaving, as the list of chosen
thread indices) from the initial `n`-thread configuration. -/
def run (n : Nat) (sched : List Nat) : Config := sched.foldl step (init n)

/-- A thread is inside the critical section (holds `m_mutex`). -/
def lockish : TState → Bool
  | .locked => true
  | .constructing => true
  | .unlocking _ => true
  | _ => false

/-- Every thread has returned from `getInstance`. -/
def allDone (c : Config) : Bool :=
  c.threads.all fun t => match t with | .done _ => true | _ => false

/-- Inductive invariant of the V2 machine: mutex discipline (nobody inside
the critical section when the mutex is free, at most one thread inside),
the slot/counter/allocator coupling, a constructing thread saw null under
the lock and the slot is still null, and a thread holding a result `r` saw
the slot equal to `some r` (which is stable, as the slot is write-once). -/
def Invariant (c : Config) : Prop :=
  (c.global.m_mutex = false →
      ∀ i (hi : i < c.threads.length), lockish c.threads[i] = false) ∧
  (∀ i j (hi : i < c.threads.length) (hj : j < c.threads.length), i ≠ j →
      lockish c.threads[i] = true → lockish c.threads[j] = false) ∧
  (c.global.m_instance = none → c.global.ctorCount = 0 ∧ c.global.nextId = 0) ∧
  (∀ p, c.global.m_instance = some p →
      p = 0 ∧ c.global.ctorCount = 1 ∧ c.global.nextId = 1) ∧
  (∀ i (hi : i < c.threads.length), c.threads[i] = .constructing →
      c.global.m_instance = none) ∧
  (∀ i (hi : i < c.threads.length) (r : Nat),
      c.threads[i] = .unlocking r ∨ c.threads[i] = .done r →
      c.global.m_instance = some r)

end SingletonV2

namespace SingletonV3

/-- V3 `getInstance` (Singleton.cpp lines 67-75), sequential execution:
outer null-check; only if null, lock, re-check, construct if still null. -/
def getInstance (s : SState) : Nat × SState :=
  match s.m_instance with
  | none =>
      -- lock acquired; second check of m_instance
      match s.m_instance with
      | none =>
          let p := s.nextId
          (p, ⟨some p, s.ctorCount + 1, s.nextId + 1⟩)
      | some p => (p, s)
  | some p => (p, s)

/-- V3 `getInstance` instrumented with whether the `std::lock_guard` on the
slow path was entered: the lock is taken exactly when the first (unlocked)
check saw `nullptr`. Returns (result, final state, lock acquired?). -/
def getInstanceLocked (s : SState) : Nat × SState × Bool :=
  match s.m_instance with
  | none =>
      match s.m_instance with
      | none =>
          let p := s.nextId
          (p, ⟨some p, s.ctorCount + 1, s.nextId + 1⟩, true)
      | some p => (p, s, true)
  | some p => (p, s, false)

/-- V3 `getInstance` with a fallible constructor. -/
def getInstanceE (ok : Bool) (s : SState) : Except Unit Nat × SState :=
  match s.m_instance with
  | none =>
      match s.m_instance with
      | none =>
          if ok then
            let p := s.nextId
            (.ok p, ⟨some p, s.ctorCount + 1, s.nextId + 1⟩)
          else (.error (), s)
      | some p => (.ok p, s)
  | some p => (.ok p, s)

end SingletonV3

namespace SingletonV4

/-- V4 `getInstance` (Singleton.cpp lines 96-110), sequential execution:
`tmp = m_instance.load(relaxed)`; acquire fence; if `tmp == nullptr` then
lock, reload, and if still null construct, release fence, store. Fences are
no-ops in a single-threaded execution. -/
def getInstance (s : SState) : Nat × SState :=
  let tmp := s.m_instance
  match tmp with
  | none =>
      let tmp2 := s.m_instance
      match tmp2 with
      | none =>
          let p := s.nextId
          (p, ⟨some p, s.ctorCount + 1, s.nextId + 1⟩)
      | some p => (p, s)
  | some p => (p, s)

/-- V4 `getInstance` with a fallible constructor: `tmp = new Singleton()`
throws inside the critical section, before the release fence and the
`m_instance.store`, so the slot is never written. -/
def getInstanceE (ok : Bool) (s : SState) : Except Unit Nat × SState :=
  let tmp := s.m_instance
  match tmp with
  | none =>
      let tmp2 := s.m_instance
      match tmp2 with
      | none =>
          if ok then
            let p := s.nextId
            (.ok p, ⟨some p, s.ctorCount + 1, s.nextId + 1⟩)
          else (.error (), s)
      | some p => (.ok p, s)
  | some p => (.ok p, s)

/-! ### Interleaving machine for V4

Concurrent executions of V4's `getInstance`. The call is broken at every
access to the shared `std::atomic<Singleton*> m_instance` and `m_mutex`:
the unlocked relaxed load (+ acquire fence), the lock acquisition, the
second relaxed load under the lock, `new Singleton()`, the release fence +
relaxed store publishing the pointer, and the `lock_guard` destructor. -/

/-- Shared (static) state of the V4 class. -/
structure Global where
  m_instance : Option Nat
  m_mutex : Bool
  ctorCount : Nat
  nextId : Nat
deriving Repr, DecidableEq

/-- Control point of one thread inside V4 `getInstance`. -/
inductive TState where
  /-- about to run `tmp = m_instance.load(relaxed)` + acquire fence -/
  | start : TState
  /-- holds the loaded value `tmp`, about to test `tmp == nullptr` -/
  | checked : Option Nat → TState
  /-- `tmp` was null, about to run `std::lock_guard lock(m_mutex)` -/
  | waitLock : TState
  /-- holds the mutex, about to re-run `tmp = m_instance.load(relaxed)` -/
  | locked : TState
  /-- holds the second loaded value, about to test it against null -/
  | relocked : Option Nat → TState
  /-- ran `tmp = new Singleton()` (constructor complete), about to run the
  release fence and `m_instance.store(tmp, relaxed)` -/
  | built : Nat → TState
  /-- body finished with result `r`, `lock_guard` destructor pending -/
  | unlocking : Nat → TState
  /-- returned `r` from `getInstance` -/
  | done : Nat → TState
deriving Repr, DecidableEq

/-- One small step of a single V4 thread. -/
def threadStep (g : Global) (t : TState) : Global × TState :=
  match t with
  | .start => (g, .checked g.m_instance)
  | .checked none => (g, .waitLock)
  | .checked (some p) => (g, .done p)
  | .waitLock =>
      if g.m_mutex then (g, .waitLock) else ({ g with m_mutex := true }, .locked)
  | .locked => (g, .relocked g.m_instance)
  | .relocked none =>
      let p := g.nextId
      (⟨g.m_instance, g.m_mutex, g.ctorCount + 1, g.nextId + 1⟩, .built p)
  | .relocked (some p) => (g, .unlocking p)
  | .built p => (⟨some p, g.m_mutex, g.ctorCount, g.nextId⟩, .unlocking p)
  | .unlocking r => ({ g with m_mutex := false }, .done r)
  | .done r => (g, .done r)

/-- A configuration: the shared state plus every thread's control point. -/
structure Config where
  global : Global
  threads : List TState
deriving Repr, DecidableEq

/-- The scheduler lets thread `i` take one step. -/
def step (c : Config) (i : Nat) : Config :=
  if h : i < c.threads.length then
    ⟨(threadStep c.global c.threads[i]).1,
     c.threads.set i (threadStep c.global c.threads[i]).2⟩
  else c

/-- Initial configuration: `m_instance{nullptr}`, mutex free, `n` threads. -/
def init (n : Nat) : Config := ⟨⟨none, false, 0, 0⟩, List.replicate n .start⟩

/-- Run a schedule from the initial `n`-thread configuration. -/
def run (n : Nat) (sched : List Nat) : Config := sched.foldl step (init n)

/-- A thread currently holds `m_mutex`. -/
def lockish : TState → Bool
  | .locked => true
  | .relocked _ => true
  | .built _ => true
  | .unlocking _ => true
  | _ => false

/-- Every thread has returned from `getInstance`. -/
def allDone (c : Config) : Bool :=
  c.threads.all fun t => match t with | .done _ => true | _ => false

/-- Inductive invariant of the V4 machine: mutex discipline; a three-phase
description of the shared state (nothing constructed yet / constructed by
the lock holder but not yet published / published), coupling the slot, the
constructor counter and the allocator; and the knowledge each thread's
control point carries about the (write-once) slot. -/
def Invariant (c : Config) : Prop :=
  (c.global.m_mutex = false →
      ∀ i (hi : i < c.threads.length), lockish c.threads[i] = false) ∧
  (∀ i j (hi : i < c.threads.length) (hj : j < c.threads.length), i ≠ j →
      lockish c.threads[i] = true → lockish c.threads[j] = false) ∧
  (c.global.m_instance = none →
      (c.global.ctorCount = 0 ∧ c.global.nextId = 0 ∧
        ∀ i (hi : i < c.threads.length) (p : Nat), c.threads[i] ≠ TState.built p) ∨
      (c.global.ctorCount = 1 ∧ c.global.nextId = 1 ∧
        ∃ w, ∃ hw : w < c.threads.length, c.threads[w] = TState.built 0)) ∧
  (∀ p, c.global.m_instance = some p →
      p = 0 ∧ c.global.ctorCount = 1 ∧ c.global.nextId = 1 ∧
      ∀ i (hi : i < c.threads.length) (q : Nat), c.threads[i] ≠ TState.built q) ∧
  (∀ i (hi : i < c.threads.length), c.threads[i] = TState.relocked none →
      c.global.m_instance = none) ∧
  (∀ i (hi : i < c.threads.length) (p : Nat),
      c.threads[i] = TState.checked (some p) → c.global.m_instance = some p) ∧
  (∀ i (hi : i < c.threads.length) (p : Nat),
      c.threads[i] = TState.relocked (some p) → c.global.m_instance = some p) ∧
  (∀ i (hi : i < c.threads.length) (r : Nat),
      c.threads[i] = TState.unlocking r ∨ c.threads[i] = TState.done r →
      c.global.m_instance = some r)

/-! ### Event-level model of V4's acquire/release ordering contract

V4's correctness argument is about the C++ memory model, not about
interleavings: the publishing thread runs the constructor's writes, then
`atomic_thread_fence(release)`, then `m_instance.store(tmp, relaxed)`
(lines 103-105); an observing thread runs `m_instance.load(relaxed)`, then
`atomic_thread_fence(acquire)` (lines 97-98), and then uses the returned
pointer. We model the per-thread event sequences exactly as they occur in
the source, together with the fence-to-fence synchronization rule of the
C++ memory model, and derive the happens-before edge from the constructor's
writes to the observer's use of the instance. -/

/-- The `std::memory_order` arguments appearing in V4. -/
inductive MemOrder where
  | relaxed : MemOrder
  | acquire : MemOrder
  | release : MemOrder
deriving Repr, DecidableEq

/-- Kinds of memory-model events performed by V4. -/
inductive Action where
  /-- the non-atomic writes performed by `new Singleton()`'s constructor -/
  | ctorWrites : Action
  /-- `std::atomic_thread_fence(o)` -/
  | fence : MemOrder → Action
  /-- `m_instance.load(o)` -/
  | load : MemOrder → Action
  /-- `m_instance.store(tmp, o)` -/
  | store : MemOrder → Action
  /-- the caller dereferencing the pointer returned by `getInstance` -/
  | useInstance : Action
deriving Repr, DecidableEq

/-- An event: issuing thread, position in that thread's program order, and
the action performed. -/
structure Event where
  tid : Nat
  idx : Nat
  act : Action
deriving Repr, DecidableEq

/-- Publisher events in source order (slow path of lines 103-105). -/
def ctorEv : Event := ⟨0, 0, .ctorWrites⟩

/-- The `std::atomic_thread_fence(std::memory_order_release)` of line 104. -/
def releaseFenceEv : Event := ⟨0, 1, .fence .release⟩

/-- The `m_instance.store(tmp, std::memory_order_relaxed)` of line 105. -/
def publishStoreEv : Event := ⟨0, 2, .store .relaxed⟩

/-- The observer's `m_instance.load(std::memory_order_relaxed)` (line 97). -/
def observeLoadEv : Event := ⟨1, 0, .load .relaxed⟩

/-- The observer's `std::atomic_thread_fence(std::memory_order_acquire)`
(line 98). -/
def acquireFenceEv : Event := ⟨1, 1, .fence .acquire⟩

/-- The observer using the non-null pointer it got back. -/
def useEv : Event := ⟨1, 2, .useInstance⟩

/-- Program order within a thread. -/
def sequencedBefore (a b : Event) : Prop := a.tid = b.tid ∧ a.idx < b.idx

/-- The event is an atomic store to `m_instance`. -/
def isAtomicStore (e : Event) : Prop := ∃ o, e.act = .store o

/-- The event is an atomic load of `m_instance`. -/
def isAtomicLoad (e : Event) : Prop := ∃ o, e.act = .load o

/-- Fence-to-fence synchronization rule of the C++ memory model
([atomics.fences] p2): a release fence `F` synchronizes with an acquire
fence `G` if there are an atomic store `X` sequenced after `F` and an
atomic load `Y` sequenced before `G` such that `Y` reads the value written
by `X` (`rf X Y`). -/
def fencesSynchronizeWith (rf : Event → Event → Prop) (F G : Event) : Prop :=
  F.act = .fence .release ∧ G.act = .fence .acquire ∧
  ∃ X Y, isAtomicStore X ∧ isAtomicLoad Y ∧
    sequencedBefore F X ∧ rf X Y ∧ sequencedBefore Y G

/-- Happens-before: the transitive closure of sequenced-before and
fence synchronization, given a reads-from relation `rf`. -/
inductive happensBefore (rf : Event → Event → Prop) : Event → Event → Prop where
  | sb {a b : Event} : sequencedBefore a b → happensBefore rf a b
  | sw {a b : Event} : fencesSynchronizeWith rf a b → happensBefore rf a b
  | trans {a b c : Event} :
      happensBefore rf a b → happensBefore rf b c → happensBefore rf a c

end SingletonV4

namespace SingletonV5

/-- V5 `getInstance` (Singleton.cpp lines 123-126), sequential execution:
`static Singleton instance` is constructed on first entry and returned by
reference on every call. The slot models the static's storage, the guard
being trivial sequentially. -/
def getInstance (s : SState) : Nat × SState :=
  match s.m_instance with
  | none =>
      let p := s.nextId
      (p, ⟨some p, s.ctorCount + 1, s.nextId + 1⟩)
  | some p => (p, s)

/-- V5 `getInstance` with a fallible constructor: per C++ [stmt.dcl], if the
initialization of a block-scoped static exits by throwing, it is not
considered complete and is retried on the next entry. -/
def getInstanceE (ok : Bool) (s : SState) : Except Unit Nat × SState :=
  match s.m_instance with
  | none =>
      if ok then
        let p := s.nextId
        (.ok p, ⟨some p, s.ctorCount + 1, s.nextId + 1⟩)
      else (.error (), s)
  | some p => (.ok p, s)

/-! ### Interleaving machine for V5

Concurrent executions of V5's `getInstance`. The C++ runtime guarantees
that the block-scoped `static Singleton instance` is initialized exactly
once, on first entry, with concurrent callers blocking until the
initialization completes and its effects visible to all threads
([stmt.dcl] p4). We model the implicit guard the ABI attaches to the
static: `uninit` (never entered), `running` (one thread is executing the
initializer, others block), `ready` (initialized). -/

/-- State of the implicit guard variable of the block-scoped static. -/
inductive GuardState where
  | uninit : GuardState
  | running : GuardState
  | ready : GuardState
deriving Repr, DecidableEq

/-- Shared state of V5: the storage of `static Singleton instance`, its
guard, and the instrumentation counters. -/
structure Global where
  instanceObj : Option Nat
  guard : GuardState
  ctorCount : Nat
  nextId : Nat
deriving Repr, DecidableEq

/-- Control point of one thread inside V5 `getInstance`. -/
inductive TState where
  /-- about to enter the declaration `static Singleton instance;` -/
  | start : TState
  /-- won the guard, running the `Singleton()` constructor -/
  | initializing : TState
  /-- returned (a reference to) `instance` -/
  | done : Nat → TState
deriving Repr, DecidableEq

/-- One small step of a single V5 thread. A thread arriving while the
guard is `running` blocks (stutters); completion of the initializer and
release of the guard is the runtime's single atomic exactly-once event. -/
def threadStep (g : Global) (t : TState) : Global × TState :=
  match t with
  | .start =>
      match g.guard with
      | .uninit => ({ g with guard := .running }, .initializing)
      | .running => (g, .start)
      | .ready =>
          match g.instanceObj with
          | some p => (g, .done p)
          | none => (g, .start)
  | .initializing =>
      let p := g.nextId
      (⟨some p, .ready, g.ctorCount + 1, g.nextId + 1⟩, .done p)
  | .done r => (g, .done r)

/-- A configuration: the shared state plus every thread's control point. -/
structure Config where
  global : Global
  threads : List TState
deriving Repr, DecidableEq

/-- The scheduler lets thread `i` take one step. -/
def step (c : Config) (i : Nat) : Config :=
  if h : i < c.threads.length then
    ⟨(threadStep c.global c.threads[i]).1,
     c.threads.set i (threadStep c.global c.threads[i]).2⟩
  else c

/-- Initial configuration: static never entered, `n` threads. -/
def init (n : Nat) : Config := ⟨⟨none, .uninit, 0, 0⟩, List.replicate n .start⟩

/-- Run a schedule from the initial `n`-thread configuration. -/
def run (n : Nat) (sched : List Nat) : Config := sched.foldl step (init n)

/-- Every thread has returned from `getInstance`. -/
def allDone (c : Config) : Bool :=
  c.threads.all fun t => match t with | .done _ => true | _ => false

/-- Inductive invariant of the V5 machine: the guard phase couples the
static's storage, the constructor counter and the allocator; the
initializer runs in at most one thread, and only while the guard is
`running`; a finished thread holds the published identity. -/
def Invariant (c : Config) : Prop :=
  (c.global.guard = GuardState.uninit →
      c.global.instanceObj = none ∧ c.global.ctorCount = 0 ∧ c.global.nextId = 0 ∧
      ∀ i (hi : i < c.threads.length), c.threads[i] = TState.start) ∧
  (c.global.guard = GuardState.running →
      c.global.instanceObj = none ∧ c.global.ctorCount = 0 ∧ c.global.nextId = 0) ∧
  (∀ i (hi : i < c.threads.length), c.threads[i] = TState.initializing →
      c.global.guard = GuardState.running) ∧
  (∀ i j (hi : i < c.threads.length) (hj : j < c.threads.length),
      c.threads[i] = TState.initializing → c.threads[j] = TState.initializing →
      i = j) ∧
  (c.global.guard = GuardState.ready →
      c.global.instanceObj = some 0 ∧ c.global.ctorCount = 1 ∧ c.global.nextId = 1 ∧
      ∀ i (hi : i < c.threads.length), c.threads[i] ≠ TState.initializing) ∧
  (∀ i (hi : i < c.threads.length) (r : Nat), c.threads[i] = TState.done r →
      c.global.instanceObj = some r)

end SingletonV5

/-! ### Declared interface of Singleton.cpp

What the file exposes, for the interface-shape claim: each variant is a
class named `Singleton` with a static member `getInstance`; the return
types are `Singleton*` for V1-V4 (lines 16, 40, 67, 96) and `Singleton&`
for V5 (line 123). -/

/-- Kind of value an accessor returns. -/
inductive RetKind where
  | pointer : RetKind
  | reference : RetKind
deriving Repr, DecidableEq

/-- One accessor declaration of Singleton.cpp: enclosing class name,
member name, return kind. -/
structure Accessor where
  className : String
  methodName : String
  ret : RetKind
deriving Repr, DecidableEq

/-- The five accessors declared in Singleton.cpp, in file order. -/
def declaredAccessors : List Accessor :=
  [⟨"Singleton", "getInstance", .pointer⟩,
   ⟨"Singleton", "getInstance", .pointer⟩,
   ⟨"Singleton", "getInstance", .pointer⟩,
   ⟨"Singleton", "getInstance", .pointer⟩,
   ⟨"Singleton", "getInstance", .reference⟩]

/-- A sequential schedule for the interleaving machines: thread 0 takes `k`
steps, then thread 1 takes `k` steps, and so on for `n` threads. Used to
exhibit concrete completed executions. -/
def seqSched : Nat → Nat → List Nat
  | 0, _ => []
  | n + 1, k => seqSched n k ++ List.replicate k n

/-! ## Generic helpers for the interleaving machines -/

/-- An elementwise property survives replacing one element, provided the
new element satisfies it. -/
theorem forall_getElem_set {α : Type} {l : List α} {i : Nat} {a : α}
    {P : α → Prop} (hl : ∀ j (hj : j < l.length), P l[j]) (ha : P a) :
    ∀ j (hj : j < (l.set i a).length), P (l.set i a)[j] := by
  intro j hj
  rw [List.getElem_set]
  split
  · exact ha
  · exact hl j (by simpa using hj)

/-- Pairwise exclusion (at most one element marked by `L`) survives
replacing one element by an unmarked one. -/
theorem pairwise_excl_set_false {α : Type} {l : List α} {i : Nat} {a : α}
    {L : α → Bool}
    (hM1 : ∀ x y (hx : x < l.length) (hy : y < l.length), x ≠ y →
        L l[x] = true → L l[y] = false)
    (ha : L a = false) :
    ∀ x y (hx : x < (l.set i a).length) (hy : y < (l.set i a).length),
      x ≠ y → L (l.set i a)[x] = true → L (l.set i a)[y] = false := by
  intro x y hx hy hxy hLx
  rw [List.getElem_set] at hLx ⊢
  by_cases hix : i = x
  · subst hix
    rw [if_pos rfl] at hLx
    exact absurd hLx (by simp [ha])
  · rw [if_neg hix] at hLx
    by_cases hiy : i = y
    · subst hiy
      rw [if_pos rfl]
      exact ha
    · rw [if_neg hiy]
      exact hM1 x y (by simpa using hx) (by simpa using hy) hxy hLx

/-- Pairwise exclusion survives replacing one element by another with the
same mark. -/
theorem pairwise_excl_set_same {α : Type} {l : List α} {i : Nat} {a : α}
    {L : α → Bool} (hi : i < l.length)
    (hM1 : ∀ x y (hx : x < l.length) (hy : y < l.length), x ≠ y →
        L l[x] = true → L l[y] = false)
    (hsame : L a = L l[i]) :
    ∀ x y (hx : x < (l.set i a).length) (hy : y < (l.set i a).length),
      x ≠ y → L (l.set i a)[x] = true → L (l.set i a)[y] = false := by
  intro x y hx hy hxy hLx
  rw [List.getElem_set] at hLx ⊢
  by_cases hix : i = x
  · subst hix
    rw [if_pos rfl] at hLx
    by_cases hiy : i = y
    · exact absurd hiy hxy
    · rw [if_neg hiy]
      exact hM1 i y hi (by simpa using hy) hxy (hsame ▸ hLx)
  · rw [if_neg hix] at hLx
    by_cases hiy : i = y
    · subst hiy
      rw [if_pos rfl, hsame]
      exact hM1 x i (by simpa using hx) hi hxy hLx
    · rw [if_neg hiy]
      exact hM1 x y (by simpa using hx) (by simpa using hy) hxy hLx

/-- If no element is marked, then after replacing one element the only
possibly marked position is the replaced one, so pairwise exclusion holds. -/
theorem pairwise_excl_set_fresh {α : Type} {l : List α} {i : Nat} {a : α}
    {L : α → Bool}
    (hall : ∀ x (hx : x < l.length), L l[x] = false) :
    ∀ x y (hx : x < (l.set i a).length) (hy : y < (l.set i a).length),
      x ≠ y → L (l.set i a)[x] = true → L (l.set i a)[y] = false := by
  intro x y hx hy hxy hLx
  rw [List.getElem_set] at hLx ⊢
  by_cases hiy : i = y
  · subst hiy
    by_cases hix : i = x
    · exact absurd hix.symm hxy
    · rw [if_neg hix] at hLx
      exact absurd hLx (by simp [hall x (by simpa using hx)])
  · rw [if_neg hiy]
    exact hall y (by simpa using hy)

/-- If the only marked element is replaced by an unmarked one, nothing is
marked any more. -/
theorem all_false_set_of_excl {α : Type} {l : List α} {i : Nat} {a : α}
    {L : α → Bool} (hi : i < l.length)
    (hM1 : ∀ x y (hx : x < l.length) (hy : y < l.length), x ≠ y →
        L l[x] = true → L l[y] = false)
    (hLi : L l[i] = true) (ha : L a = false) :
    ∀ x (hx : x < (l.set i a).length), L (l.set i a)[x] = false := by
  intro x hx
  rw [List.getElem_set]
  by_cases hix : i = x
  · rw [if_pos hix]
    exact ha
  · rw [if_neg hix]
    exact hM1 i x hi (by simpa using hx) hix hLi

/-- A property preserved by every step holds after folding any schedule. -/
theorem foldl_preserve {σ ι : Type} {P : σ → Prop} (f : σ → ι → σ)
    (hf : ∀ s i, P s → P (f s i)) :
    ∀ (l : List ι) (s : σ), P s → P (l.foldl f s)
  | [], _, hs => hs
  | i :: l, s, hs => foldl_preserve f hf l (f s i) (hf s i hs)

/-! ## The V2 machine: invariant lemmas -/

/-- A step never changes the number of threads. -/
theorem SingletonV2.length_step_v2 (c : Config) (i : Nat) :
    (step c i).threads.length = c.threads.length := by
  unfold step
  split
  · simp
  · rfl

/-- The initial configuration satisfies the invariant. -/
theorem SingletonV2.invariant_init_v2 (n : Nat) : Invariant (init n) := by
  refine ⟨?_, ?_, ?_, ?_, ?_, ?_⟩ <;>
    simp [init, lockish, List.getElem_replicate]

/-- Auxiliary to `SingletonV2.invariant_step_v2`: the configuration reached by
letting thread `i` (whose current control point is `t`) take one step still
satisfies the invariant. -/
theorem SingletonV2.invariant_step_aux_v2 (c : Config) (i : Nat)
    (hi : i < c.threads.length) (t : TState) (hth : c.threads[i] = t)
    (h : Invariant c) :
    Invariant ⟨(threadStep c.global t).1,
               c.threads.set i (threadStep c.global t).2⟩ := by
  obtain ⟨hM0, hM1, hS1, hS2, hP1, hP2⟩ := h
  unfold Invariant
  cases t with
  | start =>
    by_cases hm : c.global.m_mutex = true
    · have hred : threadStep c.global TState.start = (c.global, TState.start) := by
        simp [threadStep, hm]
      rw [hred]
      refine ⟨?_, ?_, hS1, hS2, ?_, ?_⟩
      · intro hmf
        have hmf2 : c.global.m_mutex = false := hmf
        rw [hm] at hmf2
        exact absurd hmf2 (by simp)
      · exact pairwise_excl_set_same hi hM1 (by rw [hth])
      · exact forall_getElem_set
          (P := fun u => u = TState.constructing → c.global.m_instance = none)
          (fun j hj => hP1 j hj) (by simp)
      · exact forall_getElem_set
          (P := fun u => ∀ r, u = TState.unlocking r ∨ u = TState.done r →
            c.global.m_instance = some r)
          (fun j hj => hP2 j hj) (by simp)
    · have hm2 : c.global.m_mutex = false := by simpa using hm
      have hred : threadStep c.global TState.start =
          ({ c.global with m_mutex := true }, TState.locked) := by
        simp [threadStep, hm2]
      rw [hred]
      refine ⟨?_, ?_, hS1, hS2, ?_, ?_⟩
      · intro hmf
        have hmf2 : true = false := hmf
        exact absurd hmf2 (by simp)
      · exact pairwise_excl_set_fresh (hM0 hm2)
      · exact forall_getElem_set
          (P := fun u => u = TState.constructing → c.global.m_instance = none)
          (fun j hj => hP1 j hj) (by simp)
      · exact forall_getElem_set
          (P := fun u => ∀ r, u = TState.unlocking r ∨ u = TState.done r →
            c.global.m_instance = some r)
          (fun j hj => hP2 j hj) (by simp)
  | locked =>
    have hml : c.global.m_mutex = true := by
      by_contra hmf
      rw [Bool.not_eq_true] at hmf
      have hl := hM0 hmf i hi
      rw [hth] at hl
      exact absurd hl (by simp [lockish])
    rcases Option.eq_none_or_eq_some c.global.m_instance with hslot | ⟨p, hslot⟩
    · have hred : threadStep c.global TState.locked = (c.global, TState.constructing) := by
        simp [threadStep, hslot]
      rw [hred]
      refine ⟨?_, ?_, hS1, hS2, ?_, ?_⟩
      · intro hmf
        have hmf2 : c.global.m_mutex = false := hmf
        rw [hml] at hmf2
        exact absurd hmf2 (by simp)
      · exact pairwise_excl_set_same hi hM1 (by rw [hth]; rfl)
      · exact forall_getElem_set
          (P := fun u => u = TState.constructing → c.global.m_instance = none)
          (fun j hj => hP1 j hj) (fun _ => hslot)
      · exact forall_getElem_set
          (P := fun u => ∀ r, u = TState.unlocking r ∨ u = TState.done r →
            c.global.m_instance = some r)
          (fun j hj => hP2 j hj) (by simp)
    · have hred : threadStep c.global TState.locked = (c.global, TState.unlocking p) := by
        simp [threadStep, hslot]
      rw [hred]
      refine ⟨?_, ?_, hS1, hS2, ?_, ?_⟩
      · intro hmf
        have hmf2 : c.global.m_mutex = false := hmf
        rw [hml] at hmf2
        exact absurd hmf2 (by simp)
      · exact pairwise_excl_set_same hi hM1 (by rw [hth]; rfl)
      · exact forall_getElem_set
          (P := fun u => u = TState.constructing → c.global.m_instance = none)
          (fun j hj => hP1 j hj) (by simp)
      · refine forall_getElem_set
          (P := fun u => ∀ r, u = TState.unlocking r ∨ u = TState.done r →
            c.global.m_instance = some r)
          (fun j hj => hP2 j hj) ?_
        intro r hr
        rcases hr with hr | hr
        · injection hr with hpr
          rw [← hpr]
          exact hslot
        · exact absurd hr (by simp)
  | constructing =>
    have hslot : c.global.m_instance = none := hP1 i hi hth
    obtain ⟨hc0, hn0⟩ := hS1 hslot
    simp only [threadStep]
    refine ⟨?_, ?_, ?_, ?_, ?_, ?_⟩
    · intro hmf
      have hml : c.global.m_mutex = true := by
        by_contra hmg
        rw [Bool.not_eq_true] at hmg
        have hl := hM0 hmg i hi
        rw [hth] at hl
        exact absurd hl (by simp [lockish])
      exact absurd (hml.symm.trans hmf) (by simp)
    · exact pairwise_excl_set_same hi hM1 (by rw [hth]; rfl)
    · intro hnew
      exact absurd hnew (by simp)
    · intro p hp
      injection hp with hp
      refine ⟨by omega, by omega, by omega⟩
    · intro j hj hcon
      rw [List.getElem_set] at hcon
      by_cases hij : i = j
      · rw [if_pos hij] at hcon
        exact absurd hcon (by simp)
      · rw [if_neg hij] at hcon
        have hj2 : j < c.threads.length := by simpa using hj
        have hl := hM1 i j hi hj2 hij (by rw [hth]; rfl)
        rw [hcon] at hl
        exact absurd hl (by simp [lockish])
    · intro j hj r hr
      rw [List.getElem_set] at hr
      by_cases hij : i = j
      · rw [if_pos hij] at hr
        rcases hr with hr | hr
        · injection hr with hr
          rw [hr]
        · exact absurd hr (by simp)
      · rw [if_neg hij] at hr
        have hj2 : j < c.threads.length := by simpa using hj
        have hsr := hP2 j hj2 r hr
        rw [hslot] at hsr
        exact absurd hsr (by simp)
  | unlocking r =>
    simp only [threadStep]
    refine ⟨?_, ?_, hS1, hS2, ?_, ?_⟩
    · intro hmf
      exact all_false_set_of_excl hi hM1 (by rw [hth]; rfl) rfl
    · exact pairwise_excl_set_false hM1 rfl
    · exact forall_getElem_set
        (P := fun u => u = TState.constructing → c.global.m_instance = none)
        (fun j hj => hP1 j hj) (by simp)
    · refine forall_getElem_set
        (P := fun u => ∀ q, u = TState.unlocking q ∨ u = TState.done q →
          c.global.m_instance = some q)
        (fun j hj => hP2 j hj) ?_
      intro q hq
      rcases hq with hq | hq
      · exact absurd hq (by simp)
      · injection hq with hq
        exact hq ▸ hP2 i hi r (Or.inl hth)
  | done r =>
    simp only [threadStep]
    refine ⟨?_, ?_, hS1, hS2, ?_, ?_⟩
    · intro hmf
      exact forall_getElem_set (P := fun u => lockish u = false) (hM0 hmf) rfl
    · exact pairwise_excl_set_same hi hM1 (by rw [hth])
    · exact forall_getElem_set
        (P := fun u => u = TState.constructing → c.global.m_instance = none)
        (fun j hj => hP1 j hj) (by simp)
    · refine forall_getElem_set
        (P := fun u => ∀ q, u = TState.unlocking q ∨ u = TState.done q →
          c.global.m_instance = some q)
        (fun j hj => hP2 j hj) ?_
      intro q hq
      rcases hq with hq | hq
      · exact absurd hq (by simp)
      · injection hq with hq
        exact hq ▸ hP2 i hi r (Or.inr hth)


/-- Every scheduler step preserves the invariant. -/
theorem SingletonV2.invariant_step_v2 (c : Config) (i : Nat)
    (h : Invariant c) : Invariant (step c i) := by
  unfold step
  split
  case isTrue hi => exact invariant_step_aux_v2 c i hi _ rfl h
  case isFalse => exact h

/-- The invariant holds, and the thread count is preserved, along every run. -/
theorem SingletonV2.invariant_run_v2 (n : Nat) (sched : List Nat) :
    Invariant (run n sched) ∧ (run n sched).threads.length = n :=
  foldl_preserve (P := fun c => Invariant c ∧ c.threads.length = n) step
    (fun c i hc => ⟨invariant_step_v2 c i hc.1, (length_step_v2 c i).trans hc.2⟩)
    sched (init n) ⟨invariant_init_v2 n, by simp [init]⟩

/-- A thread marked finished by `allDone` is in a `done` state. -/
theorem SingletonV2.isDone_exists_v2 (t : TState)
    (h : (match t with | TState.done _ => true | _ => false) = true) :
    ∃ r, t = TState.done r := by
  cases t with
  | done r => exact ⟨r, rfl⟩
  | start => simp at h
  | locked => simp at h
  | constructing => simp at h
  | unlocking r => simp at h

/-- If every V2 thread finished, exactly one construction happened and every
thread returned the same identity (the one instance, id 0). -/
theorem SingletonV2.run_allDone_v2 (n : Nat) (hn : 1 ≤ n) (sched : List Nat)
    (hd : allDone (run n sched) = true) :
    (run n sched).global.ctorCount = 1 ∧
    (run n sched).threads = List.replicate n (TState.done 0) := by
  obtain ⟨hinv, hlen⟩ := invariant_run_v2 n sched
  obtain ⟨hM0, hM1, hS1, hS2, hP1, hP2⟩ := hinv
  have hall := List.all_eq_true.mp hd
  have h0 : 0 < (run n sched).threads.length := by rw [hlen]; omega
  obtain ⟨r0, h0d⟩ := isDone_exists_v2 _ (hall _ (List.getElem_mem h0))
  have hslot : (run n sched).global.m_instance = some r0 := hP2 0 h0 r0 (Or.inr h0d)
  obtain ⟨hr0, hcount, -⟩ := hS2 r0 hslot
  refine ⟨hcount, List.eq_replicate_iff.mpr ⟨hlen, ?_⟩⟩
  intro b hb
  obtain ⟨j, hj, hbj⟩ := List.mem_iff_getElem.mp hb
  obtain ⟨rb, hrb⟩ := isDone_exists_v2 b (hall b hb)
  have hsb := hP2 j hj rb (Or.inr (by rw [hbj, hrb]))
  rw [hslot] at hsb
  injection hsb with hh
  rw [hrb, ← hh, hr0]

/-! ## The V4 machine: invariant lemmas -/

/-- A step never changes the number of threads. -/
theorem SingletonV4.length_step_v4 (c : Config) (i : Nat) :
    (step c i).threads.length = c.threads.length := by
  unfold step
  split
  · simp
  · rfl

/-- The initial configuration satisfies the invariant. -/
theorem SingletonV4.invariant_init_v4 (n : Nat) : Invariant (init n) := by
  refine ⟨?_, ?_, ?_, ?_, ?_, ?_, ?_, ?_⟩ <;>
    simp [init, lockish, List.getElem_replicate]

/-- A thread that has run the constructor but not yet published
(`built p`) is the unique lock holder; the slot is still null, the object
it built is the one with id 0, and the counters already account for it. -/
theorem SingletonV4.built_facts (c : Config) (h : Invariant c) (i : Nat)
    (hi : i < c.threads.length) (p : Nat) (hb : c.threads[i] = TState.built p) :
    c.global.m_instance = none ∧ p = 0 ∧
    c.global.ctorCount = 1 ∧ c.global.nextId = 1 := by
  obtain ⟨hM0, hM1, hSA, hS2, hRN, hCS, hRS, hPU⟩ := h
  rcases Option.eq_none_or_eq_some c.global.m_instance with hslot | ⟨q, hslot⟩
  · rcases hSA hslot with ⟨hc, hn, hnb⟩ | ⟨hc, hn, w, hw, hwb⟩
    · exact absurd hb (hnb i hi p)
    · by_cases hiw : i = w
      · subst hiw
        have heq : TState.built p = TState.built 0 := hb.symm.trans hwb
        injection heq with hp0
        exact ⟨hslot, hp0, hc, hn⟩
      · have hlw := hM1 i w hi hw hiw (by simp [hb, lockish])
        rw [hwb] at hlw
        exact absurd hlw (by simp [lockish])
  · exact absurd hb ((hS2 q hslot).2.2.2 i hi p)

/-- Phase facts survive replacing thread `i`, when neither the old nor the
new control point of thread `i` is a `built` state and the shared state is
unchanged. -/
theorem SingletonV4.phase_set (c : Config) (i : Nat) (hi : i < c.threads.length)
    (t' : TState) (hnb' : ∀ p, t' ≠ TState.built p)
    (hnbi : ∀ p, c.threads[i] ≠ TState.built p)
    (hSA : c.global.m_instance = none →
      (c.global.ctorCount = 0 ∧ c.global.nextId = 0 ∧
        ∀ j (hj : j < c.threads.length) (p : Nat), c.threads[j] ≠ TState.built p) ∨
      (c.global.ctorCount = 1 ∧ c.global.nextId = 1 ∧
        ∃ w, ∃ hw : w < c.threads.length, c.threads[w] = TState.built 0))
    (hslot : c.global.m_instance = none) :
    (c.global.ctorCount = 0 ∧ c.global.nextId = 0 ∧
      ∀ j (hj : j < (c.threads.set i t').length) (p : Nat),
        (c.threads.set i t')[j] ≠ TState.built p) ∨
    (c.global.ctorCount = 1 ∧ c.global.nextId = 1 ∧
      ∃ w, ∃ hw : w < (c.threads.set i t').length,
        (c.threads.set i t')[w] = TState.built 0) := by
  rcases hSA hslot with ⟨hc, hn, hnb⟩ | ⟨hc, hn, w, hw, hwb⟩
  · exact Or.inl ⟨hc, hn,
      forall_getElem_set (P := fun u => ∀ p, u ≠ TState.built p)
        (fun j hj => hnb j hj) hnb'⟩
  · have hiw : i ≠ w := by
      rintro rfl
      exact hnbi 0 hwb
    exact Or.inr ⟨hc, hn, w, by simpa using hw,
      by rw [List.getElem_set_ne hiw]; exact hwb⟩

/-- Auxiliary to `SingletonV4.invariant_step_v4`: stepping thread `i` (at
control point `t`) preserves the invariant. -/
theorem SingletonV4.invariant_step_aux_v4 (c : Config) (i : Nat)
    (hi : i < c.threads.length) (t : TState) (hth : c.threads[i] = t)
    (h : Invariant c) :
    Invariant ⟨(threadStep c.global t).1,
               c.threads.set i (threadStep c.global t).2⟩ := by
  obtain ⟨hM0, hM1, hSA, hS2, hRN, hCS, hRS, hPU⟩ := h
  unfold Invariant
  cases t with
  | start =>
    simp only [threadStep]
    refine ⟨?_, ?_, ?_, ?_, ?_, ?_, ?_, ?_⟩
    · intro hmf
      exact forall_getElem_set (P := fun u => lockish u = false) (hM0 hmf) rfl
    · exact pairwise_excl_set_same hi hM1 (by simp [hth, lockish])
    · intro hslot
      exact phase_set c i hi _ (by simp) (by simp [hth]) hSA hslot
    · intro p hp
      obtain ⟨h0, h1, h2, hnb⟩ := hS2 p hp
      exact ⟨h0, h1, h2,
        forall_getElem_set (P := fun u => ∀ q, u ≠ TState.built q)
          (fun j hj => hnb j hj) (by simp)⟩
    · exact forall_getElem_set
        (P := fun u => u = TState.relocked none → c.global.m_instance = none)
        (fun j hj => hRN j hj) (by simp)
    · refine forall_getElem_set
        (P := fun u => ∀ p, u = TState.checked (some p) →
          c.global.m_instance = some p)
        (fun j hj => hCS j hj) ?_
      intro p hcp
      injection hcp with h2
    · exact forall_getElem_set
        (P := fun u => ∀ p, u = TState.relocked (some p) →
          c.global.m_instance = some p)
        (fun j hj => hRS j hj) (by simp)
    · exact forall_getElem_set
        (P := fun u => ∀ r, u = TState.unlocking r ∨ u = TState.done r →
          c.global.m_instance = some r)
        (fun j hj => hPU j hj) (by simp)
  | checked o =>
    cases o with
    | none =>
      simp only [threadStep]
      refine ⟨?_, ?_, ?_, ?_, ?_, ?_, ?_, ?_⟩
      · intro hmf
        exact forall_getElem_set (P := fun u => lockish u = false) (hM0 hmf) rfl
      · exact pairwise_excl_set_same hi hM1 (by simp [hth, lockish])
      · intro hslot
        exact phase_set c i hi _ (by simp) (by simp [hth]) hSA hslot
      · intro p hp
        obtain ⟨h0, h1, h2, hnb⟩ := hS2 p hp
        exact ⟨h0, h1, h2,
          forall_getElem_set (P := fun u => ∀ q, u ≠ TState.built q)
            (fun j hj => hnb j hj) (by simp)⟩
      · exact forall_getElem_set
          (P := fun u => u = TState.relocked none → c.global.m_instance = none)
          (fun j hj => hRN j hj) (by simp)
      · exact forall_getElem_set
          (P := fun u => ∀ p, u = TState.checked (some p) →
            c.global.m_instance = some p)
          (fun j hj => hCS j hj) (by simp)
      · exact forall_getElem_set
          (P := fun u => ∀ p, u = TState.relocked (some p) →
            c.global.m_instance = some p)
          (fun j hj => hRS j hj) (by simp)
      · exact forall_getElem_set
          (P := fun u => ∀ r, u = TState.unlocking r ∨ u = TState.done r →
            c.global.m_instance = some r)
          (fun j hj => hPU j hj) (by simp)
    | some p =>
      have hsl : c.global.m_instance = some p := hCS i hi p hth
      simp only [threadStep]
      refine ⟨?_, ?_, ?_, ?_, ?_, ?_, ?_, ?_⟩
      · intro hmf
        exact forall_getElem_set (P := fun u => lockish u = false) (hM0 hmf) rfl
      · exact pairwise_excl_set_same hi hM1 (by simp [hth, lockish])
      · intro hslot
        have hslot2 : c.global.m_instance = none := hslot
        rw [hsl] at hslot2
        exact absurd hslot2 (by simp)
      · intro q hq
        obtain ⟨h0, h1, h2, hnb⟩ := hS2 q hq
        exact ⟨h0, h1, h2,
          forall_getElem_set (P := fun u => ∀ q2, u ≠ TState.built q2)
            (fun j hj => hnb j hj) (by simp)⟩
      · exact forall_getElem_set
          (P := fun u => u = TState.relocked none → c.global.m_instance = none)
          (fun j hj => hRN j hj) (by simp)
      · exact forall_getElem_set
          (P := fun u => ∀ q, u = TState.checked (some q) →
            c.global.m_instance = some q)
          (fun j hj => hCS j hj) (by simp)
      · exact forall_getElem_set
          (P := fun u => ∀ q, u = TState.relocked (some q) →
            c.global.m_instance = some q)
          (fun j hj => hRS j hj) (by simp)
      · refine forall_getElem_set
          (P := fun u => ∀ r, u = TState.unlocking r ∨ u = TState.done r →
            c.global.m_instance = some r)
          (fun j hj => hPU j hj) ?_
        intro r hr
        rcases hr with hr | hr
        · exact absurd hr (by simp)
        · injection hr with h2
          rw [← h2]
          exact hsl
  | waitLock =>
    by_cases hm : c.global.m_mutex = true
    · have hred : threadStep c.global TState.waitLock = (c.global, TState.waitLock) := by
        simp [threadStep, hm]
      rw [hred]
      refine ⟨?_, ?_, ?_, ?_, ?_, ?_, ?_, ?_⟩
      · intro hmf
        exact forall_getElem_set (P := fun u => lockish u = false) (hM0 hmf) rfl
      · exact pairwise_excl_set_same hi hM1 (by simp [hth, lockish])
      · intro hslot
        exact phase_set c i hi _ (by simp) (by simp [hth]) hSA hslot
      · intro p hp
        obtain ⟨h0, h1, h2, hnb⟩ := hS2 p hp
        exact ⟨h0, h1, h2,
          forall_getElem_set (P := fun u => ∀ q, u ≠ TState.built q)
            (fun j hj => hnb j hj) (by simp)⟩
      · exact forall_getElem_set
          (P := fun u => u = TState.relocked none → c.global.m_instance = none)
          (fun j hj => hRN j hj) (by simp)
      · exact forall_getElem_set
          (P := fun u => ∀ p, u = TState.checked (some p) →
            c.global.m_instance = some p)
          (fun j hj => hCS j hj) (by simp)
      · exact forall_getElem_set
          (P := fun u => ∀ p, u = TState.relocked (some p) →
            c.global.m_instance = some p)
          (fun j hj => hRS j hj) (by simp)
      · exact forall_getElem_set
          (P := fun u => ∀ r, u = TState.unlocking r ∨ u = TState.done r →
            c.global.m_instance = some r)
          (fun j hj => hPU j hj) (by simp)
    · have hm2 : c.global.m_mutex = false := by simpa using hm
      have hred : threadStep c.global TState.waitLock =
          ({ c.global with m_mutex := true }, TState.locked) := by
        simp [threadStep, hm2]
      rw [hred]
      refine ⟨?_, ?_, ?_, ?_, ?_, ?_, ?_, ?_⟩
      · intro hmf
        have hmf2 : true = false := hmf
        exact absurd hmf2 (by simp)
      · exact pairwise_excl_set_fresh (hM0 hm2)
      · intro hslot
        exact phase_set c i hi _ (by simp) (by simp [hth]) hSA hslot
      · intro p hp
        obtain ⟨h0, h1, h2, hnb⟩ := hS2 p hp
        exact ⟨h0, h1, h2,
          forall_getElem_set (P := fun u => ∀ q, u ≠ TState.built q)
            (fun j hj => hnb j hj) (by simp)⟩
      · exact forall_getElem_set
          (P := fun u => u = TState.relocked none → c.global.m_instance = none)
          (fun j hj => hRN j hj) (by simp)
      · exact forall_getElem_set
          (P := fun u => ∀ p, u = TState.checked (some p) →
            c.global.m_instance = some p)
          (fun j hj => hCS j hj) (by simp)
      · exact forall_getElem_set
          (P := fun u => ∀ p, u = TState.relocked (some p) →
            c.global.m_instance = some p)
          (fun j hj => hRS j hj) (by simp)
      · exact forall_getElem_set
          (P := fun u => ∀ r, u = TState.unlocking r ∨ u = TState.done r →
            c.global.m_instance = some r)
          (fun j hj => hPU j hj) (by simp)
  | locked =>
    have hml : c.global.m_mutex = true := by
      by_contra hmf
      rw [Bool.not_eq_true] at hmf
      have hl := hM0 hmf i hi
      rw [hth] at hl
      exact absurd hl (by simp [lockish])
    simp only [threadStep]
    refine ⟨?_, ?_, ?_, ?_, ?_, ?_, ?_, ?_⟩
    · intro hmf
      have hmf2 : c.global.m_mutex = false := hmf
      rw [hml] at hmf2
      exact absurd hmf2 (by simp)
    · exact pairwise_excl_set_same hi hM1 (by simp [hth, lockish])
    · intro hslot
      exact phase_set c i hi _ (by simp) (by simp [hth]) hSA hslot
    · intro p hp
      obtain ⟨h0, h1, h2, hnb⟩ := hS2 p hp
      exact ⟨h0, h1, h2,
        forall_getElem_set (P := fun u => ∀ q, u ≠ TState.built q)
          (fun j hj => hnb j hj) (by simp)⟩
    · refine forall_getElem_set
        (P := fun u => u = TState.relocked none → c.global.m_instance = none)
        (fun j hj => hRN j hj) ?_
      intro hr
      injection hr with h2
    · exact forall_getElem_set
        (P := fun u => ∀ p, u = TState.checked (some p) →
          c.global.m_instance = some p)
        (fun j hj => hCS j hj) (by simp)
    · refine forall_getElem_set
        (P := fun u => ∀ p, u = TState.relocked (some p) →
          c.global.m_instance = some p)
        (fun j hj => hRS j hj) ?_
      intro p hq
      injection hq with h2
    · exact forall_getElem_set
        (P := fun u => ∀ r, u = TState.unlocking r ∨ u = TState.done r →
          c.global.m_instance = some r)
        (fun j hj => hPU j hj) (by simp)
  | relocked o =>
    have hml : c.global.m_mutex = true := by
      by_contra hmf
      rw [Bool.not_eq_true] at hmf
      have hl := hM0 hmf i hi
      rw [hth] at hl
      exact absurd hl (by simp [lockish])
    cases o with
    | none =>
      have hsl : c.global.m_instance = none := hRN i hi hth
      have hcase : c.global.ctorCount = 0 ∧ c.global.nextId = 0 ∧
          ∀ j (hj : j < c.threads.length) (p : Nat),
            c.threads[j] ≠ TState.built p := by
        rcases hSA hsl with hc | ⟨hc, hn, w, hw, hwb⟩
        · exact hc
        · by_cases hiw : i = w
          · subst hiw
            exact absurd (hth.symm.trans hwb) (by simp)
          · have hlw := hM1 i w hi hw hiw (by simp [hth, lockish])
            rw [hwb] at hlw
            exact absurd hlw (by simp [lockish])
      obtain ⟨hc0, hn0, hnb⟩ := hcase
      simp only [threadStep]
      refine ⟨?_, ?_, ?_, ?_, ?_, ?_, ?_, ?_⟩
      · intro hmf
        have hmf2 : c.global.m_mutex = false := hmf
        rw [hml] at hmf2
        exact absurd hmf2 (by simp)
      · exact pairwise_excl_set_same hi hM1 (by simp [hth, lockish])
      · intro hslot
        refine Or.inr ⟨?_, ?_, i, by simpa using hi, ?_⟩
        · show c.global.ctorCount + 1 = 1
          omega
        · show c.global.nextId + 1 = 1
          omega
        · rw [List.getElem_set_self, hn0]
      · intro p hp
        have hp2 : c.global.m_instance = some p := hp
        rw [hsl] at hp2
        exact absurd hp2 (by simp)
      · exact forall_getElem_set
          (P := fun u => u = TState.relocked none → c.global.m_instance = none)
          (fun j hj => hRN j hj) (by simp)
      · exact forall_getElem_set
          (P := fun u => ∀ p, u = TState.checked (some p) →
            c.global.m_instance = some p)
          (fun j hj => hCS j hj) (by simp)
      · exact forall_getElem_set
          (P := fun u => ∀ p, u = TState.relocked (some p) →
            c.global.m_instance = some p)
          (fun j hj => hRS j hj) (by simp)
      · exact forall_getElem_set
          (P := fun u => ∀ r, u = TState.unlocking r ∨ u = TState.done r →
            c.global.m_instance = some r)
          (fun j hj => hPU j hj) (by simp)
    | some p =>
      have hsl : c.global.m_instance = some p := hRS i hi p hth
      simp only [threadStep]
      refine ⟨?_, ?_, ?_, ?_, ?_, ?_, ?_, ?_⟩
      · intro hmf
        have hmf2 : c.global.m_mutex = false := hmf
        rw [hml] at hmf2
        exact absurd hmf2 (by simp)
      · exact pairwise_excl_set_same hi hM1 (by simp [hth, lockish])
      · intro hslot
        have hslot2 : c.global.m_instance = none := hslot
        rw [hsl] at hslot2
        exact absurd hslot2 (by simp)
      · intro q hq
        obtain ⟨h0, h1, h2, hnb⟩ := hS2 q hq
        exact ⟨h0, h1, h2,
          forall_getElem_set (P := fun u => ∀ q2, u ≠ TState.built q2)
            (fun j hj => hnb j hj) (by simp)⟩
      · exact forall_getElem_set
          (P := fun u => u = TState.relocked none → c.global.m_instance = none)
          (fun j hj => hRN j hj) (by simp)
      · exact forall_getElem_set
          (P := fun u => ∀ q, u = TState.checked (some q) →
            c.global.m_instance = some q)
          (fun j hj => hCS j hj) (by simp)
      · exact forall_getElem_set
          (P := fun u => ∀ q, u = TState.relocked (some q) →
            c.global.m_instance = some q)
          (fun j hj => hRS j hj) (by simp)
      · refine forall_getElem_set
          (P := fun u => ∀ r, u = TState.unlocking r ∨ u = TState.done r →
            c.global.m_instance = some r)
          (fun j hj => hPU j hj) ?_
        intro r hr
        rcases hr with hr | hr
        · injection hr with h2
          rw [← h2]
          exact hsl
        · exact absurd hr (by simp)
  | built p =>
    obtain ⟨hsl, hp0, hc1, hn1⟩ :=
      built_facts c ⟨hM0, hM1, hSA, hS2, hRN, hCS, hRS, hPU⟩ i hi p hth
    have hml : c.global.m_mutex = true := by
      by_contra hmf
      rw [Bool.not_eq_true] at hmf
      have hl := hM0 hmf i hi
      rw [hth] at hl
      exact absurd hl (by simp [lockish])
    simp only [threadStep]
    refine ⟨?_, ?_, ?_, ?_, ?_, ?_, ?_, ?_⟩
    · intro hmf
      have hmf2 : c.global.m_mutex = false := hmf
      rw [hml] at hmf2
      exact absurd hmf2 (by simp)
    · exact pairwise_excl_set_same hi hM1 (by simp [hth, lockish])
    · intro hslot
      have hslot2 : (some p : Option Nat) = none := hslot
      exact absurd hslot2 (by simp)
    · intro q hq
      have hq2 : (some p : Option Nat) = some q := hq
      injection hq2 with hq3
      refine ⟨by omega, hc1, hn1, ?_⟩
      intro j hj q2 hbq
      rw [List.getElem_set] at hbq
      by_cases hij : i = j
      · rw [if_pos hij] at hbq
        exact absurd hbq (by simp)
      · rw [if_neg hij] at hbq
        have hj2 : j < c.threads.length := by simpa using hj
        have hlj := hM1 i j hi hj2 hij (by simp [hth, lockish])
        rw [hbq] at hlj
        exact absurd hlj (by simp [lockish])
    · intro j hj hrn
      rw [List.getElem_set] at hrn
      by_cases hij : i = j
      · rw [if_pos hij] at hrn
        exact absurd hrn (by simp)
      · rw [if_neg hij] at hrn
        have hj2 : j < c.threads.length := by simpa using hj
        have hlj := hM1 i j hi hj2 hij (by simp [hth, lockish])
        rw [hrn] at hlj
        exact absurd hlj (by simp [lockish])
    · intro j hj q hcq
      rw [List.getElem_set] at hcq
      by_cases hij : i = j
      · rw [if_pos hij] at hcq
        exact absurd hcq (by simp)
      · rw [if_neg hij] at hcq
        have hj2 : j < c.threads.length := by simpa using hj
        have hx := hCS j hj2 q hcq
        rw [hsl] at hx
        exact absurd hx (by simp)
    · intro j hj q hrq
      rw [List.getElem_set] at hrq
      by_cases hij : i = j
      · rw [if_pos hij] at hrq
        exact absurd hrq (by simp)
      · rw [if_neg hij] at hrq
        have hj2 : j < c.threads.length := by simpa using hj
        have hx := hRS j hj2 q hrq
        rw [hsl] at hx
        exact absurd hx (by simp)
    · intro j hj r hr
      rw [List.getElem_set] at hr
      by_cases hij : i = j
      · rw [if_pos hij] at hr
        rcases hr with hr | hr
        · injection hr with h2
          rw [← h2]
        · exact absurd hr (by simp)
      · rw [if_neg hij] at hr
        have hj2 : j < c.threads.length := by simpa using hj
        have hx := hPU j hj2 r hr
        rw [hsl] at hx
        exact absurd hx (by simp)
  | unlocking r =>
    have hslr : c.global.m_instance = some r := hPU i hi r (Or.inl hth)
    simp only [threadStep]
    refine ⟨?_, ?_, ?_, ?_, ?_, ?_, ?_, ?_⟩
    · intro _
      exact all_false_set_of_excl hi hM1 (by simp [hth, lockish]) rfl
    · exact pairwise_excl_set_false hM1 rfl
    · intro hslot
      have hslot2 : c.global.m_instance = none := hslot
      rw [hslr] at hslot2
      exact absurd hslot2 (by simp)
    · intro q hq
      obtain ⟨h0, h1, h2, hnb⟩ := hS2 q hq
      exact ⟨h0, h1, h2,
        forall_getElem_set (P := fun u => ∀ q2, u ≠ TState.built q2)
          (fun j hj => hnb j hj) (by simp)⟩
    · exact forall_getElem_set
        (P := fun u => u = TState.relocked none → c.global.m_instance = none)
        (fun j hj => hRN j hj) (by simp)
    · exact forall_getElem_set
        (P := fun u => ∀ q, u = TState.checked (some q) →
          c.global.m_instance = some q)
        (fun j hj => hCS j hj) (by simp)
    · exact forall_getElem_set
        (P := fun u => ∀ q, u = TState.relocked (some q) →
          c.global.m_instance = some q)
        (fun j hj => hRS j hj) (by simp)
    · refine forall_getElem_set
        (P := fun u => ∀ q, u = TState.unlocking q ∨ u = TState.done q →
          c.global.m_instance = some q)
        (fun j hj => hPU j hj) ?_
      intro q hq
      rcases hq with hq | hq
      · exact absurd hq (by simp)
      · injection hq with h2
        rw [← h2]
        exact hslr
  | done r =>
    simp only [threadStep]
    refine ⟨?_, ?_, ?_, ?_, ?_, ?_, ?_, ?_⟩
    · intro hmf
      exact forall_getElem_set (P := fun u => lockish u = false) (hM0 hmf) rfl
    · exact pairwise_excl_set_same hi hM1 (by simp [hth, lockish])
    · intro hslot
      exact phase_set c i hi _ (by simp) (by simp [hth]) hSA hslot
    · intro q hq
      obtain ⟨h0, h1, h2, hnb⟩ := hS2 q hq
      exact ⟨h0, h1, h2,
        forall_getElem_set (P := fun u => ∀ q2, u ≠ TState.built q2)
          (fun j hj => hnb j hj) (by simp)⟩
    · exact forall_getElem_set
        (P := fun u => u = TState.relocked none → c.global.m_instance = none)
        (fun j hj => hRN j hj) (by simp)
    · exact forall_getElem_set
        (P := fun u => ∀ q, u = TState.checked (some q) →
          c.global.m_instance = some q)
        (fun j hj => hCS j hj) (by simp)
    · exact forall_getElem_set
        (P := fun u => ∀ q, u = TState.relocked (some q) →
          c.global.m_instance = some q)
        (fun j hj => hRS j hj) (by simp)
    · refine forall_getElem_set
        (P := fun u => ∀ q, u = TState.unlocking q ∨ u = TState.done q →
          c.global.m_instance = some q)
        (fun j hj => hPU j hj) ?_
      intro q hq
      rcases hq with hq | hq
      · exact absurd hq (by simp)
      · injection hq with h2
        rw [← h2]
        exact hPU i hi r (Or.inr hth)

/-- Every scheduler step preserves the V4 invariant. -/
theorem SingletonV4.invariant_step_v4 (c : Config) (i : Nat)
    (h : Invariant c) : Invariant (step c i) := by
  unfold step
  split
  case isTrue hi => exact invariant_step_aux_v4 c i hi _ rfl h
  case isFalse => exact h

/-- The invariant holds, and the thread count is preserved, along every run. -/
theorem SingletonV4.invariant_run_v4 (n : Nat) (sched : List Nat) :
    Invariant (run n sched) ∧ (run n sched).threads.length = n :=
  foldl_preserve (P := fun c => Invariant c ∧ c.threads.length = n) step
    (fun c i hc => ⟨invariant_step_v4 c i hc.1, (length_step_v4 c i).trans hc.2⟩)
    sched (init n) ⟨invariant_init_v4 n, by simp [init]⟩

/-- A thread marked finished by `allDone` is in a `done` state. -/
theorem SingletonV4.isDone_exists_v4 (t : TState)
    (h : (match t with | TState.done _ => true | _ => false) = true) :
    ∃ r, t = TState.done r := by
  cases t with
  | done r => exact ⟨r, rfl⟩
  | start => simp at h
  | checked o => simp at h
  | waitLock => simp at h
  | locked => simp at h
  | relocked o => simp at h
  | built p => simp at h
  | unlocking r => simp at h

/-- If every V4 thread finished, exactly one construction happened and every
thread returned the same identity (the one instance, id 0). -/
theorem SingletonV4.run_allDone_v4 (n : Nat) (hn : 1 ≤ n) (sched : List Nat)
    (hd : allDone (run n sched) = true) :
    (run n sched).global.ctorCount = 1 ∧
    (run n sched).threads = List.replicate n (TState.done 0) := by
  obtain ⟨hinv, hlen⟩ := invariant_run_v4 n sched
  obtain ⟨hM0, hM1, hSA, hS2, hRN, hCS, hRS, hPU⟩ := hinv
  have hall := List.all_eq_true.mp hd
  have h0 : 0 < (run n sched).threads.length := by rw [hlen]; omega
  obtain ⟨r0, h0d⟩ := isDone_exists_v4 _ (hall _ (List.getElem_mem h0))
  have hslot : (run n sched).global.m_instance = some r0 :=
    hPU 0 h0 r0 (Or.inr h0d)
  obtain ⟨hr0, hcount, -, -⟩ := hS2 r0 hslot
  refine ⟨hcount, List.eq_replicate_iff.mpr ⟨hlen, ?_⟩⟩
  intro b hb
  obtain ⟨j, hj, hbj⟩ := List.mem_iff_getElem.mp hb
  obtain ⟨rb, hrb⟩ := isDone_exists_v4 b (hall b hb)
  have hsb := hPU j hj rb (Or.inr (by rw [hbj, hrb]))
  rw [hslot] at hsb
  injection hsb with hh
  rw [hrb, ← hh, hr0]

/-! ## The V5 machine: invariant lemmas -/

/-- At most one element equals the mark `v`; this survives replacing one
element by something other than `v`. -/
theorem unique_mark_set_ne {α : Type} {l : List α} {i : Nat} {a v : α}
    (h : ∀ x y (hx : x < l.length) (hy : y < l.length),
      l[x] = v → l[y] = v → x = y)
    (ha : a ≠ v) :
    ∀ x y (hx : x < (l.set i a).length) (hy : y < (l.set i a).length),
      (l.set i a)[x] = v → (l.set i a)[y] = v → x = y := by
  intro x y hx hy hxv hyv
  rw [List.getElem_set] at hxv hyv
  by_cases hix : i = x
  · rw [if_pos hix] at hxv
    exact absurd hxv ha
  · rw [if_neg hix] at hxv
    by_cases hiy : i = y
    · rw [if_pos hiy] at hyv
      exact absurd hyv ha
    · rw [if_neg hiy] at hyv
      exact h x y (by simpa using hx) (by simpa using hy) hxv hyv

/-- If no element equals the mark `v`, then after replacing one element the
only position that can carry `v` is the replaced one, so it is unique. -/
theorem unique_mark_set_fresh {α : Type} {l : List α} {i : Nat} {a v : α}
    (hall : ∀ x (hx : x < l.length), l[x] ≠ v) :
    ∀ x y (hx : x < (l.set i a).length) (hy : y < (l.set i a).length),
      (l.set i a)[x] = v → (l.set i a)[y] = v → x = y := by
  intro x y hx hy hxv hyv
  by_cases hix : i = x
  · by_cases hiy : i = y
    · omega
    · rw [List.getElem_set, if_neg hiy] at hyv
      exact absurd hyv (hall y (by simpa using hy))
  · rw [List.getElem_set, if_neg hix] at hxv
    exact absurd hxv (hall x (by simpa using hx))

/-- A step never changes the number of threads. -/
theorem SingletonV5.length_step_v5 (c : Config) (i : Nat) :
    (step c i).threads.length = c.threads.length := by
  unfold step
  split
  · simp
  · rfl

/-- The initial configuration satisfies the invariant. -/
theorem SingletonV5.invariant_init_v5 (n : Nat) : Invariant (init n) := by
  refine ⟨?_, ?_, ?_, ?_, ?_, ?_⟩ <;>
    simp [init, List.getElem_replicate]

/-- Auxiliary to `SingletonV5.invariant_step_v5`: stepping thread `i` (at
control point `t`) preserves the invariant. -/
theorem SingletonV5.invariant_step_aux_v5 (c : Config) (i : Nat)
    (hi : i < c.threads.length) (t : TState) (hth : c.threads[i] = t)
    (h : Invariant c) :
    Invariant ⟨(threadStep c.global t).1,
               c.threads.set i (threadStep c.global t).2⟩ := by
  obtain ⟨hG0, hG1, hI0, hI1, hG2, hPD⟩ := h
  unfold Invariant
  cases t with
  | start =>
    cases hgd : c.global.guard with
    | uninit =>
      obtain ⟨hslN, hc0, hn0, hallst⟩ := hG0 hgd
      have hred : threadStep c.global TState.start =
          ({ c.global with guard := GuardState.running }, TState.initializing) := by
        simp [threadStep, hgd]
      rw [hred]
      refine ⟨?_, ?_, ?_, ?_, ?_, ?_⟩
      · intro h2
        have h3 : GuardState.running = GuardState.uninit := h2
        exact absurd h3 (by simp)
      · intro _
        exact ⟨hslN, hc0, hn0⟩
      · exact fun j hj _ => rfl
      · exact unique_mark_set_fresh (fun x hx => by rw [hallst x hx]; simp)
      · intro h2
        have h3 : GuardState.running = GuardState.ready := h2
        exact absurd h3 (by simp)
      · refine forall_getElem_set
          (P := fun u => ∀ r, u = TState.done r →
            c.global.instanceObj = some r) ?_ (by simp)
        intro j hj r hdr
        exact absurd ((hallst j hj).symm.trans hdr) (by simp)
    | running =>
      have hG1v := hG1 hgd
      have hred : threadStep c.global TState.start = (c.global, TState.start) := by
        simp [threadStep, hgd]
      rw [hred]
      refine ⟨?_, ?_, ?_, ?_, ?_, ?_⟩
      · intro h2
        have h3 : c.global.guard = GuardState.uninit := h2
        rw [hgd] at h3
        exact absurd h3 (by simp)
      · intro _
        exact hG1v
      · exact forall_getElem_set
          (P := fun u => u = TState.initializing →
            c.global.guard = GuardState.running)
          (fun j hj => hI0 j hj) (by simp)
      · exact unique_mark_set_ne hI1 (by simp)
      · intro h2
        have h3 : c.global.guard = GuardState.ready := h2
        rw [hgd] at h3
        exact absurd h3 (by simp)
      · exact forall_getElem_set
          (P := fun u => ∀ r, u = TState.done r →
            c.global.instanceObj = some r)
          (fun j hj => hPD j hj) (by simp)
    | ready =>
      obtain ⟨hsl0, hc1, hn1, hnoinit⟩ := hG2 hgd
      have hred : threadStep c.global TState.start = (c.global, TState.done 0) := by
        simp [threadStep, hgd, hsl0]
      rw [hred]
      refine ⟨?_, ?_, ?_, ?_, ?_, ?_⟩
      · intro h2
        have h3 : c.global.guard = GuardState.uninit := h2
        rw [hgd] at h3
        exact absurd h3 (by simp)
      · intro h2
        have h3 : c.global.guard = GuardState.running := h2
        rw [hgd] at h3
        exact absurd h3 (by simp)
      · exact forall_getElem_set
          (P := fun u => u = TState.initializing →
            c.global.guard = GuardState.running)
          (fun j hj => hI0 j hj) (by simp)
      · exact unique_mark_set_ne hI1 (by simp)
      · intro _
        exact ⟨hsl0, hc1, hn1,
          forall_getElem_set (P := fun u => u ≠ TState.initializing)
            (fun j hj => hnoinit j hj) (by simp)⟩
      · refine forall_getElem_set
          (P := fun u => ∀ r, u = TState.done r →
            c.global.instanceObj = some r)
          (fun j hj => hPD j hj) ?_
        intro r hdr
        injection hdr with h2
        rw [← h2]
        exact hsl0
  | initializing =>
    have hgr : c.global.guard = GuardState.running := hI0 i hi hth
    obtain ⟨hslN, hc0, hn0⟩ := hG1 hgr
    simp only [threadStep]
    refine ⟨?_, ?_, ?_, ?_, ?_, ?_⟩
    · intro h2
      have h3 : GuardState.ready = GuardState.uninit := h2
      exact absurd h3 (by simp)
    · intro h2
      have h3 : GuardState.ready = GuardState.running := h2
      exact absurd h3 (by simp)
    · intro j hj hjinit
      rw [List.getElem_set] at hjinit
      by_cases hij : i = j
      · rw [if_pos hij] at hjinit
        exact absurd hjinit (by simp)
      · rw [if_neg hij] at hjinit
        have hj2 : j < c.threads.length := by simpa using hj
        exact absurd (hI1 j i hj2 hi hjinit hth).symm hij
    · intro x y hx hy hxinit hyinit
      rw [List.getElem_set] at hxinit
      by_cases hix : i = x
      · rw [if_pos hix] at hxinit
        exact absurd hxinit (by simp)
      · rw [if_neg hix] at hxinit
        have hx2 : x < c.threads.length := by simpa using hx
        exact absurd (hI1 x i hx2 hi hxinit hth).symm hix
    · intro _
      refine ⟨?_, ?_, ?_, ?_⟩
      · show (some c.global.nextId : Option Nat) = some 0
        rw [hn0]
      · show c.global.ctorCount + 1 = 1
        omega
      · show c.global.nextId + 1 = 1
        omega
      · intro j hj hjinit
        rw [List.getElem_set] at hjinit
        by_cases hij : i = j
        · rw [if_pos hij] at hjinit
          exact absurd hjinit (by simp)
        · rw [if_neg hij] at hjinit
          have hj2 : j < c.threads.length := by simpa using hj
          exact absurd (hI1 j i hj2 hi hjinit hth).symm hij
    · intro j hj r hdr
      rw [List.getElem_set] at hdr
      by_cases hij : i = j
      · rw [if_pos hij] at hdr
        injection hdr with h2
        rw [← h2]
      · rw [if_neg hij] at hdr
        have hj2 : j < c.threads.length := by simpa using hj
        have hx := hPD j hj2 r hdr
        rw [hslN] at hx
        exact absurd hx (by simp)
  | done r =>
    simp only [threadStep]
    refine ⟨?_, ?_, ?_, ?_, ?_, ?_⟩
    · intro h2
      obtain ⟨hslN, hc0, hn0, hallst⟩ := hG0 h2
      exact absurd ((hallst i hi).symm.trans hth) (by simp)
    · intro h2
      exact hG1 h2
    · exact forall_getElem_set
        (P := fun u => u = TState.initializing →
          c.global.guard = GuardState.running)
        (fun j hj => hI0 j hj) (by simp)
    · exact unique_mark_set_ne hI1 (by simp)
    · intro h2
      obtain ⟨hsl0, hc1, hn1, hnoinit⟩ := hG2 h2
      exact ⟨hsl0, hc1, hn1,
        forall_getElem_set (P := fun u => u ≠ TState.initializing)
          (fun j hj => hnoinit j hj) (by simp)⟩
    · refine forall_getElem_set
        (P := fun u => ∀ q, u = TState.done q →
          c.global.instanceObj = some q)
        (fun j hj => hPD j hj) ?_
      intro q hq
      injection hq with h2
      rw [← h2]
      exact hPD i hi r hth

/-- Every scheduler step preserves the V5 invariant. -/
theorem SingletonV5.invariant_step_v5 (c : Config) (i : Nat)
    (h : Invariant c) : Invariant (step c i) := by
  unfold step
  split
  case isTrue hi => exact invariant_step_aux_v5 c i hi _ rfl h
  case isFalse => exact h

/-- The invariant holds, and the thread count is preserved, along every run. -/
theorem SingletonV5.invariant_run_v5 (n : Nat) (sched : List Nat) :
    Invariant (run n sched) ∧ (run n sched).threads.length = n :=
  foldl_preserve (P := fun c => Invariant c ∧ c.threads.length = n) step
    (fun c i hc => ⟨invariant_step_v5 c i hc.1, (length_step_v5 c i).trans hc.2⟩)
    sched (init n) ⟨invariant_init_v5 n, by simp [init]⟩

/-- A thread marked finished by `allDone` is in a `done` state. -/
theorem SingletonV5.isDone_exists_v5 (t : TState)
    (h : (match t with | TState.done _ => true | _ => false) = true) :
    ∃ r, t = TState.done r := by
  cases t with
  | done r => exact ⟨r, rfl⟩
  | start => simp at h
  | initializing => simp at h

/-- If every V5 thread finished, exactly one construction happened and every
thread returned the same identity (the one instance, id 0). -/
theorem SingletonV5.run_allDone_v5 (n : Nat) (hn : 1 ≤ n) (sched : List Nat)
    (hd : allDone (run n sched) = true) :
    (run n sched).global.ctorCount = 1 ∧
    (run n sched).threads = List.replicate n (TState.done 0) := by
  obtain ⟨hinv, hlen⟩ := invariant_run_v5 n sched
  obtain ⟨hG0, hG1, hI0, hI1, hG2, hPD⟩ := hinv
  have hall := List.all_eq_true.mp hd
  have h0 : 0 < (run n sched).threads.length := by rw [hlen]; omega
  obtain ⟨r0, h0d⟩ := isDone_exists_v5 _ (hall _ (List.getElem_mem h0))
  have hslot : (run n sched).global.instanceObj = some r0 := hPD 0 h0 r0 h0d
  have hready : (run n sched).global.guard = GuardState.ready := by
    cases hgx : (run n sched).global.guard with
    | uninit =>
      obtain ⟨-, -, -, hallst⟩ := hG0 hgx
      exact absurd ((hallst 0 h0).symm.trans h0d) (by simp)
    | running =>
      obtain ⟨hslN, -, -⟩ := hG1 hgx
      rw [hslN] at hslot
      exact absurd hslot (by simp)
    | ready => rfl
  obtain ⟨hsl0, hc1, hn1, -⟩ := hG2 hready
  have hr0 : r0 = 0 := by
    rw [hsl0] at hslot
    injection hslot with h2
    exact h2.symm
  refine ⟨hc1, List.eq_replicate_iff.mpr ⟨hlen, ?_⟩⟩
  intro b hb
  obtain ⟨j, hj, hbj⟩ := List.mem_iff_getElem.mp hb
  obtain ⟨rb, hrb⟩ := isDone_exists_v5 b (hall b hb)
  have hsb := hPD j hj rb (by rw [hbj, hrb])
  rw [hsl0] at hsb
  injection hsb with hh
  rw [hrb, hh]

/-! ## Sequential helper lemmas -/

/-- Once the V1 slot holds `p`, any number of further sequential calls
return `p` and leave the state untouched. -/
theorem SingletonV1.calls_of_some (m : Nat) (s : SState) (p : Nat)
    (hp : s.m_instance = some p) :
    calls m s = (List.replicate m p, s) := by
  induction m with
  | zero => simp [calls]
  | succ k ih => simp [calls, getInstance, hp, ih, List.replicate_succ]

/-- A V2 scheduler step never un-publishes the slot. -/
theorem SingletonV2.slot_stable_v2 (c : Config) (i : Nat) (h : Invariant c)
    (q : Nat) (hq : c.global.m_instance = some q) :
    (step c i).global.m_instance = some q := by
  obtain ⟨hM0, hM1, hS1, hS2, hP1, hP2⟩ := h
  unfold step
  split
  case isFalse => exact hq
  case isTrue hi =>
  obtain ⟨t, hth⟩ : ∃ t, c.threads[i] = t := ⟨_, rfl⟩
  rw [hth]
  cases t with
  | start => by_cases hm : c.global.m_mutex = true <;> simp [threadStep, hm, hq]
  | locked => simp [threadStep, hq]
  | constructing =>
      have hn := hP1 i hi hth
      rw [hq] at hn
      exact absurd hn (by simp)
  | unlocking r => simp [threadStep, hq]
  | done r => simp [threadStep, hq]

/-- Once the V2 slot is published, it keeps its value along any extension
of the schedule. -/
theorem SingletonV2.slot_monotone_v2 (n : Nat) (sched sched' : List Nat)
    (q : Nat) (hq : (run n sched).global.m_instance = some q) :
    (run n (sched ++ sched')).global.m_instance = some q := by
  have hbase := (invariant_run_v2 n sched).1
  unfold run
  rw [List.foldl_append]
  exact (foldl_preserve
    (P := fun c => Invariant c ∧ c.global.m_instance = some q) step
    (fun c i hc => ⟨invariant_step_v2 c i hc.1, slot_stable_v2 c i hc.1 q hc.2⟩)
    sched' _ ⟨hbase, hq⟩).2

/-- A V4 scheduler step never un-publishes the slot. -/
theorem SingletonV4.slot_stable_v4 (c : Config) (i : Nat) (h : Invariant c)
    (q : Nat) (hq : c.global.m_instance = some q) :
    (step c i).global.m_instance = some q := by
  obtain ⟨hM0, hM1, hSA, hS2, hRN, hCS, hRS, hPU⟩ := h
  unfold step
  split
  case isFalse => exact hq
  case isTrue hi =>
  obtain ⟨t, hth⟩ : ∃ t, c.threads[i] = t := ⟨_, rfl⟩
  rw [hth]
  cases t with
  | start => simp [threadStep, hq]
  | checked o => cases o <;> simp [threadStep, hq]
  | waitLock => by_cases hm : c.global.m_mutex = true <;> simp [threadStep, hm, hq]
  | locked => simp [threadStep, hq]
  | relocked o => cases o <;> simp [threadStep, hq]
  | built p => exact absurd hth ((hS2 q hq).2.2.2 i hi p)
  | unlocking r => simp [threadStep, hq]
  | done r => simp [threadStep, hq]

/-- Once the V4 slot is published, it keeps its value along any extension
of the schedule. -/
theorem SingletonV4.slot_monotone_v4 (n : Nat) (sched sched' : List Nat)
    (q : Nat) (hq : (run n sched).global.m_instance = some q) :
    (run n (sched ++ sched')).global.m_instance = some q := by
  have hbase := (invariant_run_v4 n sched).1
  unfold run
  rw [List.foldl_append]
  exact (foldl_preserve
    (P := fun c => Invariant c ∧ c.global.m_instance = some q) step
    (fun c i hc => ⟨invariant_step_v4 c i hc.1, slot_stable_v4 c i hc.1 q hc.2⟩)
    sched' _ ⟨hbase, hq⟩).2

/-- A V5 scheduler step never un-publishes the static's storage. -/
theorem SingletonV5.slot_stable_v5 (c : Config) (i : Nat) (h : Invariant c)
    (q : Nat) (hq : c.global.instanceObj = some q) :
    (step c i).global.instanceObj = some q := by
  obtain ⟨hG0, hG1, hI0, hI1, hG2, hPD⟩ := h
  unfold step
  split
  case isFalse => exact hq
  case isTrue hi =>
  obtain ⟨t, hth⟩ : ∃ t, c.threads[i] = t := ⟨_, rfl⟩
  rw [hth]
  cases t with
  | start => cases hgd : c.global.guard <;> simp [threadStep, hgd, hq]
  | initializing =>
      obtain ⟨hslN, -, -⟩ := hG1 (hI0 i hi hth)
      rw [hq] at hslN
      exact absurd hslN (by simp)
  | done r => simp [threadStep, hq]

/-- Once the V5 static is initialized, its identity keeps its value along
any extension of the schedule. -/
theorem SingletonV5.slot_monotone_v5 (n : Nat) (sched sched' : List Nat)
    (q : Nat) (hq : (run n sched).global.instanceObj = some q) :
    (run n (sched ++ sched')).global.instanceObj = some q := by
  have hbase := (invariant_run_v5 n sched).1
  unfold run
  rw [List.foldl_append]
  exact (foldl_preserve
    (P := fun c => Invariant c ∧ c.global.instanceObj = some q) step
    (fun c i hc => ⟨invariant_step_v5 c i hc.1, slot_stable_v5 c i hc.1 q hc.2⟩)
    sched' _ ⟨hbase, hq⟩).2

/-! ## Claim theorems -/

/-- C2: in V4, the publishing thread's constructor writes are followed (in
program order) by a release fence and then the relaxed store of
`m_instance`; the observing thread's relaxed load is followed by an acquire
fence. Whenever the observing load reads the published store, the release
fence synchronizes with the acquire fence (C++ fence rule), so the
constructor's writes happen-before the observer's use of the instance. -/
theorem C2_v4_release_acquire_ordering
    (rf : SingletonV4.Event → SingletonV4.Event → Prop)
    (hrf : rf SingletonV4.publishStoreEv SingletonV4.observeLoadEv) :
    SingletonV4.fencesSynchronizeWith rf
      SingletonV4.releaseFenceEv SingletonV4.acquireFenceEv ∧
    SingletonV4.happensBefore rf SingletonV4.ctorEv SingletonV4.useEv := by
  have hsb1 : SingletonV4.sequencedBefore
      SingletonV4.ctorEv SingletonV4.releaseFenceEv := ⟨rfl, by decide⟩
  have hsb2 : SingletonV4.sequencedBefore
      SingletonV4.acquireFenceEv SingletonV4.useEv := ⟨rfl, by decide⟩
  have hsbF : SingletonV4.sequencedBefore
      SingletonV4.releaseFenceEv SingletonV4.publishStoreEv := ⟨rfl, by decide⟩
  have hsbG : SingletonV4.sequencedBefore
      SingletonV4.observeLoadEv SingletonV4.acquireFenceEv := ⟨rfl, by decide⟩
  have hsw : SingletonV4.fencesSynchronizeWith rf
      SingletonV4.releaseFenceEv SingletonV4.acquireFenceEv :=
    ⟨rfl, rfl, SingletonV4.publishStoreEv, SingletonV4.observeLoadEv,
      ⟨SingletonV4.MemOrder.relaxed, rfl⟩, ⟨SingletonV4.MemOrder.relaxed, rfl⟩,
      hsbF, hrf, hsbG⟩
  exact ⟨hsw,
    SingletonV4.happensBefore.trans (SingletonV4.happensBefore.sb hsb1)
      (SingletonV4.happensBefore.trans (SingletonV4.happensBefore.sw hsw)
        (SingletonV4.happensBefore.sb hsb2))⟩

/-- Witness for C2 at the concrete reads-from relation that relates exactly
the publishing store and the observing load. -/
theorem C2_witness :
    (fun a b => a = SingletonV4.publishStoreEv ∧ b = SingletonV4.observeLoadEv)
      SingletonV4.publishStoreEv SingletonV4.observeLoadEv ∧
    SingletonV4.happensBefore
      (fun a b => a = SingletonV4.publishStoreEv ∧ b = SingletonV4.observeLoadEv)
      SingletonV4.ctorEv SingletonV4.useEv :=
  ⟨⟨rfl, rfl⟩, (C2_v4_release_acquire_ordering _ ⟨rfl, rfl⟩).2⟩

/-- C3: for V2, V4 and V5 (sequentially), after a first call from the
uninitialized state, a second call returns the same identity, leaves the
state unchanged, and the constructor-call counter equals 1 after both
calls. -/
theorem C3_idempotence (s : SState) (h0 : s.m_instance = none)
    (hc : s.ctorCount = 0) :
    ((SingletonV2.getInstance ((SingletonV2.getInstance s).2)).1 =
        (SingletonV2.getInstance s).1 ∧
      (SingletonV2.getInstance ((SingletonV2.getInstance s).2)).2 =
        (SingletonV2.getInstance s).2 ∧
      ((SingletonV2.getInstance s).2).ctorCount = 1 ∧
      ((SingletonV2.getInstance ((SingletonV2.getInstance s).2)).2).ctorCount = 1) ∧
    ((SingletonV4.getInstance ((SingletonV4.getInstance s).2)).1 =
        (SingletonV4.getInstance s).1 ∧
      (SingletonV4.getInstance ((SingletonV4.getInstance s).2)).2 =
        (SingletonV4.getInstance s).2 ∧
      ((SingletonV4.getInstance s).2).ctorCount = 1 ∧
      ((SingletonV4.getInstance ((SingletonV4.getInstance s).2)).2).ctorCount = 1) ∧
    ((SingletonV5.getInstance ((SingletonV5.getInstance s).2)).1 =
        (SingletonV5.getInstance s).1 ∧
      (SingletonV5.getInstance ((SingletonV5.getInstance s).2)).2 =
        (SingletonV5.getInstance s).2 ∧
      ((SingletonV5.getInstance s).2).ctorCount = 1 ∧
      ((SingletonV5.getInstance ((SingletonV5.getInstance s).2)).2).ctorCount = 1) := by
  refine ⟨?_, ?_, ?_⟩
  · simp [SingletonV2.getInstance, h0, hc]
  · simp [SingletonV4.getInstance, h0, hc]
  · simp [SingletonV5.getInstance, h0, hc]

/-- Witness for C3 at the process-start state. -/
theorem C3_witness :
    SState.init.m_instance = none ∧ SState.init.ctorCount = 0 ∧
    ((SingletonV2.getInstance ((SingletonV2.getInstance SState.init).2)).1 =
      (SingletonV2.getInstance SState.init).1 ∧
     (SingletonV2.getInstance ((SingletonV2.getInstance SState.init).2)).2 =
      (SingletonV2.getInstance SState.init).2 ∧
     ((SingletonV2.getInstance SState.init).2).ctorCount = 1 ∧
     ((SingletonV2.getInstance ((SingletonV2.getInstance SState.init).2)).2).ctorCount = 1) ∧
    ((SingletonV4.getInstance ((SingletonV4.getInstance SState.init).2)).1 =
      (SingletonV4.getInstance SState.init).1 ∧
     (SingletonV4.getInstance ((SingletonV4.getInstance SState.init).2)).2 =
      (SingletonV4.getInstance SState.init).2 ∧
     ((SingletonV4.getInstance SState.init).2).ctorCount = 1 ∧
     ((SingletonV4.getInstance ((SingletonV4.getInstance SState.init).2)).2).ctorCount = 1) ∧
    ((SingletonV5.getInstance ((SingletonV5.getInstance SState.init).2)).1 =
      (SingletonV5.getInstance SState.init).1 ∧
     (SingletonV5.getInstance ((SingletonV5.getInstance SState.init).2)).2 =
      (SingletonV5.getInstance SState.init).2 ∧
     ((SingletonV5.getInstance SState.init).2).ctorCount = 1 ∧
     ((SingletonV5.getInstance ((SingletonV5.getInstance SState.init).2)).2).ctorCount = 1) := by
  have h := C3_idempotence SState.init rfl rfl
  exact ⟨rfl, rfl, h.1, h.2.1, h.2.2⟩

/-- C4: in every variant, if the constructor throws during `getInstance`
from the uninitialized state, the error propagates to the caller, the slot
stays unset and the state is untouched; a subsequent call (with a
succeeding constructor) retries and completes the construction. -/
theorem C4_construction_failure_atomicity (s : SState) (h0 : s.m_instance = none) :
    ((SingletonV1.getInstanceE false s).1 = Except.error () ∧
      (SingletonV1.getInstanceE false s).2 = s ∧
      (SingletonV1.getInstanceE true ((SingletonV1.getInstanceE false s).2)).1 =
        Except.ok s.nextId ∧
      ((SingletonV1.getInstanceE true
        ((SingletonV1.getInstanceE false s).2)).2).m_instance = some s.nextId) ∧
    ((SingletonV2.getInstanceE false s).1 = Except.error () ∧
      (SingletonV2.getInstanceE false s).2 = s ∧
      (SingletonV2.getInstanceE true ((SingletonV2.getInstanceE false s).2)).1 =
        Except.ok s.nextId ∧
      ((SingletonV2.getInstanceE true
        ((SingletonV2.getInstanceE false s).2)).2).m_instance = some s.nextId) ∧
    ((SingletonV3.getInstanceE false s).1 = Except.error () ∧
      (SingletonV3.getInstanceE false s).2 = s ∧
      (SingletonV3.getInstanceE true ((SingletonV3.getInstanceE false s).2)).1 =
        Except.ok s.nextId ∧
      ((SingletonV3.getInstanceE true
        ((SingletonV3.getInstanceE false s).2)).2).m_instance = some s.nextId) ∧
    ((SingletonV4.getInstanceE false s).1 = Except.error () ∧
      (SingletonV4.getInstanceE false s).2 = s ∧
      (SingletonV4.getInstanceE true ((SingletonV4.getInstanceE false s).2)).1 =
        Except.ok s.nextId ∧
      ((SingletonV4.getInstanceE true
        ((SingletonV4.getInstanceE false s).2)).2).m_instance = some s.nextId) ∧
    ((SingletonV5.getInstanceE false s).1 = Except.error () ∧
      (SingletonV5.getInstanceE false s).2 = s ∧
      (SingletonV5.getInstanceE true ((SingletonV5.getInstanceE false s).2)).1 =
        Except.ok s.nextId ∧
      ((SingletonV5.getInstanceE true
        ((SingletonV5.getInstanceE false s).2)).2).m_instance = some s.nextId) := by
  refine ⟨?_, ?_, ?_, ?_, ?_⟩
  · simp [SingletonV1.getInstanceE, h0]
  · simp [SingletonV2.getInstanceE, h0]
  · simp [SingletonV3.getInstanceE, h0]
  · simp [SingletonV4.getInstanceE, h0]
  · simp [SingletonV5.getInstanceE, h0]

/-- Witness for C4 at the process-start state (the failed call returns the
error, then the retry constructs instance 0). -/
theorem C4_witness :
    SState.init.m_instance = none ∧
    (SingletonV1.getInstanceE false SState.init).1 = Except.error () ∧
    (SingletonV1.getInstanceE true
      ((SingletonV1.getInstanceE false SState.init).2)).1 = Except.ok 0 ∧
    (SingletonV5.getInstanceE false SState.init).1 = Except.error () ∧
    (SingletonV5.getInstanceE true
      ((SingletonV5.getInstanceE false SState.init).2)).1 = Except.ok 0 := by
  have h := C4_construction_failure_atomicity SState.init rfl
  exact ⟨rfl, h.1.1, h.1.2.2.1, h.2.2.2.2.1, h.2.2.2.2.2.2.1⟩

/-- C6: under sequential execution from an unset slot, V1 constructs
exactly one instance on the first call (counter rises by exactly one) and
every one of the `n` calls returns that same pointer. -/
theorem C6_v1_single_threaded (s : SState) (h0 : s.m_instance = none)
    (n : Nat) (hn : 1 ≤ n) :
    (SingletonV1.calls n s).1 = List.replicate n s.nextId ∧
    (SingletonV1.calls n s).2 =
      ⟨some s.nextId, s.ctorCount + 1, s.nextId + 1⟩ := by
  cases n with
  | zero => omega
  | succ k =>
    have h1 : SingletonV1.getInstance s =
        (s.nextId, ⟨some s.nextId, s.ctorCount + 1, s.nextId + 1⟩) := by
      simp [SingletonV1.getInstance, h0]
    constructor <;>
      simp [SingletonV1.calls, h1,
        SingletonV1.calls_of_some k
          ⟨some s.nextId, s.ctorCount + 1, s.nextId + 1⟩ s.nextId rfl,
        List.replicate_succ]

/-- Witness for C6: three sequential V1 calls from process start all return
pointer 0, with one construction. -/
theorem C6_witness :
    SState.init.m_instance = none ∧ 1 ≤ 3 ∧
    (SingletonV1.calls 3 SState.init).1 = List.replicate 3 0 ∧
    (SingletonV1.calls 3 SState.init).2 = ⟨some 0, 1, 1⟩ := by
  have h := C6_v1_single_threaded SState.init rfl 3 (by omega)
  exact ⟨rfl, by omega, h.1, h.2⟩

/-- C7: V3 checks the slot without the lock; when that check sees a
non-null slot it returns it without acquiring the mutex and without
constructing; only when it sees null does it acquire the mutex, re-check,
and construct (still null in a sequential step). -/
theorem C7_v3_lock_only_on_slow_path (s : SState) :
    (∀ p, s.m_instance = some p →
      SingletonV3.getInstanceLocked s = (p, s, false)) ∧
    (s.m_instance = none →
      SingletonV3.getInstanceLocked s =
        (s.nextId, ⟨some s.nextId, s.ctorCount + 1, s.nextId + 1⟩, true)) := by
  constructor
  · intro p hp
    simp [SingletonV3.getInstanceLocked, hp]
  · intro h0
    simp [SingletonV3.getInstanceLocked, h0]

/-- Witness for C7: fast path at an initialized state (no lock), slow path
at process start (lock taken, construction). -/
theorem C7_witness :
    SingletonV3.getInstanceLocked ⟨some 5, 1, 6⟩ = (5, ⟨some 5, 1, 6⟩, false) ∧
    SingletonV3.getInstanceLocked SState.init = (0, ⟨some 0, 1, 1⟩, true) :=
  ⟨(C7_v3_lock_only_on_slow_path ⟨some 5, 1, 6⟩).1 5 rfl,
   (C7_v3_lock_only_on_slow_path SState.init).2 rfl⟩

/-- C8: as sequential state functions all five variants are extensionally
equal, and they satisfy the common contract: the first call from an unset
slot constructs and publishes the returned instance; once the slot holds an
instance, every call returns it and changes nothing. -/
theorem C8_sequential_equivalence (s : SState) :
    (SingletonV2.getInstance s = SingletonV1.getInstance s ∧
     SingletonV3.getInstance s = SingletonV1.getInstance s ∧
     SingletonV4.getInstance s = SingletonV1.getInstance s ∧
     SingletonV5.getInstance s = SingletonV1.getInstance s) ∧
    (s.m_instance = none →
      ((SingletonV1.getInstance s).2).m_instance =
        some (SingletonV1.getInstance s).1 ∧
      ((SingletonV1.getInstance s).2).ctorCount = s.ctorCount + 1) ∧
    (∀ p, s.m_instance = some p → SingletonV1.getInstance s = (p, s)) := by
  refine ⟨⟨?_, ?_, ?_, ?_⟩, ?_, ?_⟩
  · cases h : s.m_instance <;>
      simp [SingletonV1.getInstance, SingletonV2.getInstance, h]
  · cases h : s.m_instance <;>
      simp [SingletonV1.getInstance, SingletonV3.getInstance, h]
  · cases h : s.m_instance <;>
      simp [SingletonV1.getInstance, SingletonV4.getInstance, h]
  · cases h : s.m_instance <;>
      simp [SingletonV1.getInstance, SingletonV5.getInstance, h]
  · intro h0
    simp [SingletonV1.getInstance, h0]
  · intro p hp
    simp [SingletonV1.getInstance, hp]

/-- Witness for C8 at the process-start state (construction branch) and at
an initialized state (cache-hit branch). -/
theorem C8_witness :
    (SingletonV2.getInstance SState.init = SingletonV1.getInstance SState.init ∧
     SingletonV3.getInstance SState.init = SingletonV1.getInstance SState.init ∧
     SingletonV4.getInstance SState.init = SingletonV1.getInstance SState.init ∧
     SingletonV5.getInstance SState.init = SingletonV1.getInstance SState.init) ∧
    ((SingletonV1.getInstance SState.init).2).m_instance =
      some (SingletonV1.getInstance SState.init).1 ∧
    ((SingletonV1.getInstance SState.init).2).ctorCount = 1 ∧
    SingletonV1.getInstance ⟨some 5, 1, 6⟩ = (5, ⟨some 5, 1, 6⟩) := by
  have h1 := C8_sequential_equivalence SState.init
  have h2 := C8_sequential_equivalence ⟨some 5, 1, 6⟩
  exact ⟨h1.1, (h1.2.1 rfl).1, (h1.2.1 rfl).2, h2.2.2 5 rfl⟩

/-- C9: the slot is write-once in every variant. Sequentially, once the
slot holds `p`, every variant returns exactly `p` and leaves the state
unchanged; concurrently (V2, V4, V5 machines), once the slot is published
it keeps its value under any extension of the schedule. -/
theorem C9_write_once_slot (s : SState) (p : Nat) (hp : s.m_instance = some p) :
    (SingletonV1.getInstance s = (p, s) ∧
     SingletonV2.getInstance s = (p, s) ∧
     SingletonV3.getInstance s = (p, s) ∧
     SingletonV4.getInstance s = (p, s) ∧
     SingletonV5.getInstance s = (p, s)) ∧
    (∀ n sched sched' q,
      (SingletonV2.run n sched).global.m_instance = some q →
      (SingletonV2.run n (sched ++ sched')).global.m_instance = some q) ∧
    (∀ n sched sched' q,
      (SingletonV4.run n sched).global.m_instance = some q →
      (SingletonV4.run n (sched ++ sched')).global.m_instance = some q) ∧
    (∀ n sched sched' q,
      (SingletonV5.run n sched).global.instanceObj = some q →
      (SingletonV5.run n (sched ++ sched')).global.instanceObj = some q) := by
  refine ⟨⟨?_, ?_, ?_, ?_, ?_⟩,
    fun n sched sched' q => SingletonV2.slot_monotone_v2 n sched sched' q,
    fun n sched sched' q => SingletonV4.slot_monotone_v4 n sched sched' q,
    fun n sched sched' q => SingletonV5.slot_monotone_v5 n sched sched' q⟩
  · simp [SingletonV1.getInstance, hp]
  · simp [SingletonV2.getInstance, hp]
  · simp [SingletonV3.getInstance, hp]
  · simp [SingletonV4.getInstance, hp]
  · simp [SingletonV5.getInstance, hp]

/-- Witness for C9 at an initialized sequential state and at concrete
completed machine runs. -/
theorem C9_witness :
    SingletonV1.getInstance ⟨some 5, 1, 6⟩ = (5, ⟨some 5, 1, 6⟩) ∧
    SingletonV5.getInstance ⟨some 5, 1, 6⟩ = (5, ⟨some 5, 1, 6⟩) ∧
    (SingletonV2.run 1 ([0, 0, 0, 0] ++ [0])).global.m_instance = some 0 ∧
    (SingletonV4.run 1 ([0, 0, 0, 0, 0, 0, 0] ++ [0])).global.m_instance = some 0 ∧
    (SingletonV5.run 1 ([0, 0] ++ [0])).global.instanceObj = some 0 := by
  have h := C9_write_once_slot ⟨some 5, 1, 6⟩ 5 rfl
  exact ⟨h.1.1, h.1.2.2.2.2,
    h.2.1 1 [0, 0, 0, 0] [0] 0 (by decide),
    h.2.2.1 1 [0, 0, 0, 0, 0, 0, 0] [0] 0 (by decide),
    h.2.2.2 1 [0, 0] [0] 0 (by decide)⟩

/-- C10: in every variant (construction succeeding), `getInstance` never
returns null: after any call the slot holds exactly the returned instance,
and at least one construction has happened (assuming the state is
well-formed: a non-null slot implies a past construction). -/
theorem C10_never_null (s : SState)
    (hw : s.m_instance ≠ none → 1 ≤ s.ctorCount) :
    (((SingletonV1.getInstance s).2).m_instance =
        some (SingletonV1.getInstance s).1 ∧
      1 ≤ ((SingletonV1.getInstance s).2).ctorCount) ∧
    (((SingletonV2.getInstance s).2).m_instance =
        some (SingletonV2.getInstance s).1 ∧
      1 ≤ ((SingletonV2.getInstance s).2).ctorCount) ∧
    (((SingletonV3.getInstance s).2).m_instance =
        some (SingletonV3.getInstance s).1 ∧
      1 ≤ ((SingletonV3.getInstance s).2).ctorCount) ∧
    (((SingletonV4.getInstance s).2).m_instance =
        some (SingletonV4.getInstance s).1 ∧
      1 ≤ ((SingletonV4.getInstance s).2).ctorCount) ∧
    (((SingletonV5.getInstance s).2).m_instance =
        some (SingletonV5.getInstance s).1 ∧
      1 ≤ ((SingletonV5.getInstance s).2).ctorCount) := by
  rcases Option.eq_none_or_eq_some s.m_instance with h | ⟨p, h⟩
  · refine ⟨?_, ?_, ?_, ?_, ?_⟩ <;>
      simp [SingletonV1.getInstance, SingletonV2.getInstance,
        SingletonV3.getInstance, SingletonV4.getInstance,
        SingletonV5.getInstance, h]
  · have hc := hw (by rw [h]; simp)
    refine ⟨?_, ?_, ?_, ?_, ?_⟩ <;>
      simp [SingletonV1.getInstance, SingletonV2.getInstance,
        SingletonV3.getInstance, SingletonV4.getInstance,
        SingletonV5.getInstance, h, hc]

/-- Witness for C10 at the process-start state. -/
theorem C10_witness :
    ((SingletonV1.getInstance SState.init).2).m_instance =
      some (SingletonV1.getInstance SState.init).1 ∧
    1 ≤ ((SingletonV1.getInstance SState.init).2).ctorCount ∧
    ((SingletonV5.getInstance SState.init).2).m_instance =
      some (SingletonV5.getInstance SState.init).1 ∧
    1 ≤ ((SingletonV5.getInstance SState.init).2).ctorCount := by
  have h := C10_never_null SState.init (by intro hx; exact absurd rfl hx)
  exact ⟨h.1.1, h.1.2, h.2.2.2.2.1, h.2.2.2.2.2⟩

/-- C5 counterexample: the file does not expose five distinguishable
accessors returning references. All five declarations share the qualified
name `Singleton::getInstance`, and the first four return a pointer
(`Singleton*`), not a reference. -/
theorem C5_counterexample :
    ¬((declaredAccessors.Pairwise fun a b =>
        a.className ≠ b.className ∨ a.methodName ≠ b.methodName) ∧
      ∀ a ∈ declaredAccessors, a.ret = RetKind.reference) := by
  intro h
  have h1 := h.2 ⟨"Singleton", "getInstance", RetKind.pointer⟩ (by simp [declaredAccessors])
  simp at h1

/-- C5 amended: the file declares `getInstance` five times, once per
variant, each as a static member of a class named `Singleton`; the five
share the same qualified name (so tests cannot target a variant by name),
and V1-V4 return a pointer while only V5 returns a reference. -/
theorem C5_interface_shape :
    declaredAccessors.length = 5 ∧
    (∀ a ∈ declaredAccessors,
      a.className = "Singleton" ∧ a.methodName = "getInstance") ∧
    declaredAccessors.map (fun a => a.ret) =
      [RetKind.pointer, RetKind.pointer, RetKind.pointer,
       RetKind.pointer, RetKind.reference] := by
  exact ⟨rfl, by decide, rfl⟩

/-- C1: for every interleaving (schedule) of `n ≥ 32` threads that runs all
threads of the V2, V4 or V5 machine to completion, exactly one `Singleton`
is ever constructed and all `n` calls return the same identity (instance
0). Fences of V4 are modelled as no-ops in the sequentially consistent
interleaving semantics; their ordering content is the subject of the
event-level model (`SingletonV4.happensBefore`). -/
theorem C1_single_instance_concurrent (n : Nat) (hn : 32 ≤ n) :
    (∀ sched, SingletonV2.allDone (SingletonV2.run n sched) = true →
      (SingletonV2.run n sched).global.ctorCount = 1 ∧
      (SingletonV2.run n sched).threads =
        List.replicate n (SingletonV2.TState.done 0)) ∧
    (∀ sched, SingletonV4.allDone (SingletonV4.run n sched) = true →
      (SingletonV4.run n sched).global.ctorCount = 1 ∧
      (SingletonV4.run n sched).threads =
        List.replicate n (SingletonV4.TState.done 0)) ∧
    (∀ sched, SingletonV5.allDone (SingletonV5.run n sched) = true →
      (SingletonV5.run n sched).global.ctorCount = 1 ∧
      (SingletonV5.run n sched).threads =
        List.replicate n (SingletonV5.TState.done 0)) :=
  ⟨fun sched hd => SingletonV2.run_allDone_v2 n (by omega) sched hd,
   fun sched hd => SingletonV4.run_allDone_v4 n (by omega) sched hd,
   fun sched hd => SingletonV5.run_allDone_v5 n (by omega) sched hd⟩

set_option maxRecDepth 100000 in
/-- Witness for C1: a concrete completed 32-thread execution of each
machine (each thread runs to completion in turn). -/
theorem C1_witness :
    (SingletonV2.run 32 (seqSched 32 7)).global.ctorCount = 1 ∧
    (SingletonV2.run 32 (seqSched 32 7)).threads =
      List.replicate 32 (SingletonV2.TState.done 0) ∧
    (SingletonV4.run 32 (seqSched 32 7)).global.ctorCount = 1 ∧
    (SingletonV4.run 32 (seqSched 32 7)).threads =
      List.replicate 32 (SingletonV4.TState.done 0) ∧
    (SingletonV5.run 32 (seqSched 32 7)).global.ctorCount = 1 ∧
    (SingletonV5.run 32 (seqSched 32 7)).threads =
      List.replicate 32 (SingletonV5.TState.done 0) := by
  obtain ⟨h2, h4, h5⟩ := C1_single_instance_concurrent 32 (by omega)
  have hv2 := h2 (seqSched 32 7) (by decide)
  have hv4 := h4 (seqSched 32 7) (by decide)
  have hv5 := h5 (seqSched 32 7) (by decide)
  exact ⟨hv2.1, hv2.2, hv4.1, hv4.2, hv5.1, hv5.2⟩
